import Mathlib

/-!
# Verification of the SDTrimSP-GUI configuration codec

A shallow embedding of `SDTrimSettings.py` (the simulation-configuration
codec of the SDTrimSP GUI): the variable registry, the encoder
(`extractVariables`), the two writers (`getWriteInputFileString`,
`getWriteLayersFileString`) and the decoder/validator (`loadInputFile`,
`loadLayersFile`, `checkValueRange`).

Modelling conventions:
* Python strings are `List Char` (`Str` below); Python's `strip`, `split`,
  `lower`, `replace` and friends are re-implemented on that type.
* Python floats are modelled by `PyF`: a finite value kept as an exact
  rational (`ℚ`), or the non-finite `inf`/`-inf`/`nan` that `float(...)`
  accepts as literals (`nan`, `inf`, `infinity`, case-insensitive, signed)
  or produces by overflow of large decimal literals.  Within the finite
  range values are exact (no binary64 rounding, and underscore separators
  in numeric literals are outside the model); the numeral renderer
  produces an exact decimal expansion (value-equivalent to Python's
  shortest-repr rendering).
* Python `int` vs `float` is tracked by a Boolean flag on numeric values:
  it affects only rendering, never comparison (as in Python, `2 == 2.0`).
* Python exceptions are modelled by `Except PyErr`; the bare `except:` in
  `loadInputFile` catches every `PyErr`.  Statements that would raise an
  exception *outside* any `try` make the whole function return `.error`.
* `None` is `Option.none`, a Python list with possible `None` entries is a
  `List (Option _)`.
-/

set_option maxHeartbeats 2000000
set_option maxRecDepth 2000
set_option exponentiation.threshold 2000

deriving instance DecidableEq for Except

namespace SDTrim

/- Batteries marks the arithmetic on `Rat` `@[irreducible]`; the concrete
evaluations below need these definitions to unfold. -/
attribute [local semireducible] Rat.mul Rat.add Rat.sub Rat.inv

/-- Python strings, modelled as lists of characters. -/
abbrev Str := List Char

/-- The whitespace characters recognised by Python's `str.strip()`/`str.split()`. -/
def pyWhitespace (c : Char) : Bool :=
  c = ' ' || c = '\t' || c = '\n' || c = '\r' || c = '\x0b' || c = '\x0c'

/-- Python `str.strip()`: remove whitespace from both ends. -/
def strip (s : Str) : Str :=
  ((s.dropWhile pyWhitespace).reverse.dropWhile pyWhitespace).reverse

/-- Python `str.split(sep)` for a one-character separator: keeps empty pieces,
always returns at least one piece. -/
def splitOnChar (sep : Char) : Str → List Str
  | [] => [[]]
  | c :: cs =>
    if c = sep then [] :: splitOnChar sep cs
    else
      match splitOnChar sep cs with
      | [] => [[c]]
      | h :: t => (c :: h) :: t

/-- Helper for Python's no-argument `str.split()`. -/
def splitWSAux : Str → Str → List Str
  | [], acc => if acc.isEmpty then [] else [acc.reverse]
  | c :: cs, acc =>
    if pyWhitespace c then
      if acc.isEmpty then splitWSAux cs []
      else acc.reverse :: splitWSAux cs []
    else splitWSAux cs (c :: acc)

/-- Python `str.split()` (no argument): split on whitespace runs, dropping
empty tokens. -/
def splitWS (s : Str) : List Str := splitWSAux s []

/-- Python `str.lower()`. -/
def lowerStr (s : Str) : Str := s.map Char.toLower

/-- Python `str.startswith(pre)`. -/
def startsWith (pre s : Str) : Bool := List.isPrefixOf pre s

/-- Python `s.replace('"', '')`: drop every double-quote character. -/
def dropQuotes (s : Str) : Str := s.filter (fun c => c ≠ '"')

/-- Decimal digit test (ASCII). -/
def isDigitCh (c : Char) : Bool := 48 ≤ c.toNat && c.toNat ≤ 57

/-- Value of a decimal digit character. -/
def digitVal (c : Char) : ℕ := c.toNat - 48

/-- The character of a decimal digit. -/
def digitChar (n : ℕ) : Char := Char.ofNat (48 + n)

/-- Decimal digits of a natural number, most significant first (fuelled). -/
def natDigitsAux : ℕ → ℕ → Str
  | 0, _ => []
  | fuel + 1, n =>
    if n < 10 then [digitChar n]
    else natDigitsAux fuel (n / 10) ++ [digitChar (n % 10)]

/-- Decimal digits of a natural number, most significant first. -/
def natDigits (n : ℕ) : Str := natDigitsAux (n + 1) n

/-- Numeric value of a digit string (as read left to right). -/
def digitsToNat (s : Str) : ℕ := s.foldl (fun a c => a * 10 + digitVal c) 0

/-- All-digits test for a string. -/
def allDigits (s : Str) : Bool := s.all isDigitCh

/-- Exactly `k` decimal digits of `n` (mod `10^k`), most significant first. -/
def natDigitsFixed : ℕ → ℕ → Str
  | 0, _ => []
  | k + 1, n => natDigitsFixed k (n / 10) ++ [digitChar (n % 10)]

/-- Strip an optional leading sign; returns (isNegative, rest). -/
def parseSign : Str → Bool × Str
  | [] => (false, [])
  | c :: t =>
    if c = '+' then (false, t)
    else if c = '-' then (true, t)
    else (false, c :: t)

/-- Split a numeric literal at the first exponent marker `e`/`E`. -/
def splitExpAux : Str → Str × Option Str
  | [] => ([], none)
  | c :: cs =>
    if c = 'e' || c = 'E' then ([], some cs)
    else
      let r := splitExpAux cs
      (c :: r.1, r.2)

/-- Parse the mantissa part of a float literal: `digits[.digits]` or `.digits`,
at least one digit in total. -/
def parseMantissa? (s : Str) : Option ℚ :=
  match splitOnChar '.' s with
  | [ip] =>
    if ip ≠ [] ∧ allDigits ip then some (digitsToNat ip) else none
  | [ip, fp] =>
    if (ip ≠ [] ∨ fp ≠ []) ∧ allDigits ip ∧ allDigits fp then
      some ((digitsToNat ip : ℚ) + (digitsToNat fp : ℚ) / 10 ^ fp.length)
    else none
  | _ => none

/-- Parse the exponent part of a float literal: `[sign]digits`. -/
def parseExp? (s : Str) : Option ℤ :=
  let p := parseSign s
  if p.2 ≠ [] ∧ allDigits p.2 then
    some (if p.1 then -(digitsToNat p.2 : ℤ) else (digitsToNat p.2 : ℤ))
  else none

/-- A CPython float as `float(str)` can produce it: a finite value (kept
exact as a rational — the model does not round to binary64 inside the
finite range) or the non-finite `inf`/`-inf`/`nan`. -/
inductive PyF where
  | fin (q : ℚ)
  | inf (neg : Bool)
  | nan
  deriving DecidableEq, Repr

/-- The numerator bound at which a positive decimal literal overflows
`float(...)`: values of magnitude at least `2^1024 - 2^971` (the midpoint
above the largest finite double, which rounds to even, i.e. up to
`2^1024`) become `inf`. -/
def ovfThresholdNum : ℕ := 2 ^ 1024 - 2 ^ 971

/-- Whether `|q| ≥ 2^1024 - 2^971`, i.e. `float` of the literal overflows. -/
def pyOverflows (q : ℚ) : Bool := ovfThresholdNum * q.den ≤ q.num.natAbs

/-- Python `float(s)`: the non-finite literals `nan`/`inf`/`infinity`
(case-insensitive, optionally signed), or a decimal literal kept exact
unless it overflows to `inf`; `none` on any malformed literal
(= `ValueError`).  Underscore separators are outside the model. -/
def pyFloat? (s0 : Str) : Option PyF :=
  let p := parseSign (strip s0)
  let low := lowerStr p.2
  if low = "nan".toList then some .nan
  else if low = "inf".toList ∨ low = "infinity".toList then some (.inf p.1)
  else
    let me := splitExpAux p.2
    match parseMantissa? me.1 with
    | none => none
    | some mv =>
      match me.2 with
      | none =>
        if pyOverflows mv then some (.inf p.1)
        else some (.fin (if p.1 then -mv else mv))
      | some es =>
        match parseExp? es with
        | none => none
        | some ev =>
          let v := mv * (10 : ℚ) ^ ev
          if pyOverflows v then some (.inf p.1)
          else some (.fin (if p.1 then -v else v))

/-- Python `int(s)` on a string: `[sign]digits`. -/
def pyIntOfStr? (s0 : Str) : Option ℤ :=
  let p := parseSign (strip s0)
  if p.2 ≠ [] ∧ allDigits p.2 then
    some (if p.1 then -(digitsToNat p.2 : ℤ) else (digitsToNat p.2 : ℤ))
  else none

/-- Python `int(x)` on a float: truncation toward zero. -/
def ratTrunc (q : ℚ) : ℤ := if q < 0 then -⌊-q⌋ else ⌊q⌋

/-- How many times `p` divides `n` (0 for `p < 2` or `n = 0`); fuelled. -/
def multAux (p : ℕ) : ℕ → ℕ → ℕ
  | 0, _ => 0
  | f + 1, n => if 2 ≤ p ∧ n ≠ 0 ∧ n % p = 0 then multAux p f (n / p) + 1 else 0

/-- Multiplicity of the prime `p` in `n`. -/
def multOf (p n : ℕ) : ℕ := multAux p n n

/-- A denominator admitting a finite decimal expansion (only 2s and 5s).
Every value a Python float can hold has such a reduced denominator. -/
def decimalDen (d : ℕ) : Bool := 2 ^ multOf 2 d * 5 ^ multOf 5 d = d

/-- Number of fractional digits used to render a float with reduced
denominator `d` (at least one, like Python's `str(5.0) = '5.0'`). -/
def decExp (d : ℕ) : ℕ := max 1 (max (multOf 2 d) (multOf 5 d))

/-- Rendering of a Python float value: sign, integer part, `.`, fractional
part.  Exact decimal expansion — value-equivalent to Python's shortest-repr
`str`.  The else-branch is unreachable for float-representable values. -/
def pyFloatStr (q : ℚ) : Str :=
  if decimalDen q.den then
    (if q < 0 then ['-'] else []) ++
      (natDigits (q.num.natAbs * 10 ^ decExp q.den / q.den / 10 ^ decExp q.den) ++
        '.' :: natDigitsFixed (decExp q.den) (q.num.natAbs * 10 ^ decExp q.den / q.den))
  else
    natDigits q.num.natAbs ++ '?' :: natDigits q.den

/-- Rendering of a Python int. -/
def pyIntStr (n : ℤ) : Str := (if n < 0 then ['-'] else []) ++ natDigits n.natAbs

/-! ### Python values and exceptions -/

/-- The Python exceptions that the embedded code can raise. -/
inductive PyErr where
  | indexError
  | nameError
  | typeError
  | valueError
  | overflowError
  deriving DecidableEq, Repr

/-- A Python value as stored in the settings variables: a number (a `PyF`,
with the `int`-vs-`float` flag, which affects only rendering), a boolean,
a string, a list of numbers / strings (entries may be `None`), a list of
`[inBeam, inTarget]` pairs (decoded `occurrence`), a list of occurrence
strings such as `'10'` (encoded `occurrence`), or the two-element
`[bool, float]` list held by `globaldensity`. -/
inductive Val where
  | num (q : PyF) (isInt : Bool)
  | b (x : Bool)
  | str (s : Str)
  | numList (l : List (Option PyF))
  | strList (l : List (Option Str))
  | occList (l : List (Bool × Bool))
  | occStrs (l : List Str)
  | gd (flag : Bool) (dens : PyF)
  deriving DecidableEq, Repr

/-- Python truthiness of a value. -/
def truthy : Val → Bool
  | .num (.fin q) _ => q ≠ 0
  | .num _ _ => true
  | .b x => x
  | .str s => s ≠ []
  | .numList l => l ≠ []
  | .strList l => l ≠ []
  | .occList l => l ≠ []
  | .occStrs l => l ≠ []
  | .gd _ _ => true

/-- Python truthiness of a possibly-`None` value. -/
def truthyOpt : Option Val → Bool
  | none => false
  | some v => truthy v

/-- Python `v == n` for a possibly-`None` value against a number
(`True == 1`, mismatched types compare unequal, never raises). -/
def pyEqNum : Option Val → ℚ → Bool
  | some (.num (.fin q) _), x => q = x
  | some (.num _ _), _ => false
  | some (.b bv), x => (if bv then (1 : ℚ) else 0) = x
  | _, _ => false

/-- Python `str(x)` of a number, using the stored `int`-vs-`float` flag
(`str(float('nan')) = 'nan'`, `str(float('inf')) = 'inf'`). -/
def pyNumStr (p : PyF) (isInt : Bool) : Str :=
  match p with
  | .fin q => if isInt ∧ q.den = 1 then pyIntStr q.num else pyFloatStr q
  | .inf neg => if neg then "-inf".toList else "inf".toList
  | .nan => "nan".toList

/-- Python `str(x)` for the values that can appear in settings variables
(used for alert interpolation and by the writer). -/
def pyStrOfVal : Option Val → Str
  | none => "None".toList
  | some (.num q isInt) => pyNumStr q isInt
  | some (.b x) => if x then "True".toList else "False".toList
  | some (.str s) => s
  | some (.gd flag dens) =>
    "[".toList ++ (if flag then "True".toList else "False".toList) ++
      ", ".toList ++ pyNumStr dens false ++ "]".toList
  | some (.numList _) => "[...]".toList
  | some (.strList _) => "[...]".toList
  | some (.occList _) => "[...]".toList
  | some (.occStrs _) => "[...]".toList

/-- Python `int(x)` applied to a settings value (`int(None)` and `int`
of a list raise `TypeError`; `int` of a string parses it). -/
def pyIntOfVal : Option Val → Except PyErr ℤ
  | none => .error .typeError
  | some (.num (.fin q) _) => .ok (ratTrunc q)
  | some (.num (.inf _) _) => .error .overflowError
  | some (.num .nan _) => .error .valueError
  | some (.b x) => .ok (if x then 1 else 0)
  | some (.str s) =>
    match pyIntOfStr? s with
    | none => .error .valueError
    | some n => .ok n
  | some _ => .error .typeError

/-! ### The variable registry (`InputSettings` class attributes) -/

namespace InputSettings

/-- `InputSettings.varNames`: the variable names recognised by the GUI,
in canonical declaration order (= write order). -/
def varNames : List Str :=
  ["ncp".toList, "symbol".toList, "dns0".toList, "e_surfb".toList, "e_displ".toList,
   "occurrence".toList, "globaldensity".toList, "inel0".toList, "nh".toList,
   "idout".toList, "nr_pproj".toList, "flc".toList, "idrel".toList, "ipot".toList,
   "iintegral".toList, "isbv".toList, "qubeam".toList, "case_e0".toList, "e0".toList,
   "case_alpha".toList, "alpha0".toList, "number_calc".toList, "qu".toList,
   "qumax".toList, "ttarget".toList, "nqx".toList, "iq0".toList, "lparticle_p".toList,
   "lparticle_r".toList, "lmatrices".toList]

/-- `InputSettings.customVars`: GUI-only variables (written with a `!`). -/
def customVars : List Str := ["globaldensity".toList, "occurrence".toList]

/-- `InputSettings.ignoredVars`: name prefixes ignored on load. -/
def ignoredVars : List Str := ["ioutput_part".toList, "tableinp".toList]

/-- `InputSettings.listVars`: variables expected to be lists. -/
def listVars : List Str :=
  ["symbol".toList, "dns0".toList, "e_surfb".toList, "e_displ".toList, "inel0".toList,
   "qubeam".toList, "e0".toList, "alpha0".toList, "qu".toList, "qumax".toList]

/-- `InputSettings.boolVars`: variables expected to be Fortran booleans. -/
def boolVars : List Str :=
  ["lparticle_p".toList, "lparticle_r".toList, "lmatrices".toList]

/-- `InputSettings.blockStarts`: variables that begin a new block, with the
block title. -/
def blockStarts (n : Str) : Option Str :=
  if n = "nh".toList then some ("general".toList)
  else if n = "qubeam".toList then some ("beam".toList)
  else if n = "qu".toList then some ("target".toList)
  else if n = "lparticle_p".toList then some ("output options".toList)
  else none

/-- `InputSettings.defaultValues`: outer `none` = name not in the dict
(only `occurrence` among `varNames`); `some none` = the Python value `None`
(the three optional arrays). -/
def defaultValues (n : Str) : Option (Option Val) :=
  if n = "ncp".toList then some (some (.num (.fin 2) true))
  else if n = "symbol".toList then some (some (.str ("H".toList)))
  else if n = "dns0".toList then some none
  else if n = "e_surfb".toList then some none
  else if n = "e_displ".toList then some none
  else if n = "globaldensity".toList then some (some (.gd false (.fin 0)))
  else if n = "inel0".toList then some (some (.num (.fin 3) false))
  else if n = "nh".toList then some (some (.num (.fin 1000) false))
  else if n = "idout".toList then some (some (.num (.fin (-1)) true))
  else if n = "nr_pproj".toList then some (some (.num (.fin 10) true))
  else if n = "flc".toList then some (some (.num (.fin 1) true))
  else if n = "idrel".toList then some (some (.num (.fin 1) true))
  else if n = "ipot".toList then some (some (.num (.fin 0) true))
  else if n = "iintegral".toList then some (some (.num (.fin 2) true))
  else if n = "isbv".toList then some (some (.num (.fin 0) true))
  else if n = "qubeam".toList then some (some (.num (.fin 1) true))
  else if n = "case_e0".toList then some (some (.num (.fin 0) true))
  else if n = "e0".toList then some (some (.num (.fin 0) true))
  else if n = "case_alpha".toList then some (some (.num (.fin 0) true))
  else if n = "alpha0".toList then some (some (.num (.fin 0) true))
  else if n = "number_calc".toList then some (some (.num (.fin 19) true))
  else if n = "qu".toList then some (some (.num (.fin 1) true))
  else if n = "qumax".toList then some (some (.num (.fin 1) true))
  else if n = "ttarget".toList then some (some (.num (.fin 2000) true))
  else if n = "nqx".toList then some (some (.num (.fin 0) true))
  else if n = "iq0".toList then some (some (.num (.fin 0) true))
  else if n = "lparticle_p".toList then some (some (.b false))
  else if n = "lparticle_r".toList then some (some (.b false))
  else if n = "lmatrices".toList then some (some (.b false))
  else none

/-- `InputSettings.validRange`: allowed value ranges (both bounds present in
the source table, but either may be `None` per the checking code). -/
def validRange (n : Str) : Option (Option ℚ × Option ℚ) :=
  if n = "inel0".toList then some (some 1, some 6)
  else if n = "iintegral".toList then some (some 0, some 2)
  else if n = "case_e0".toList then some (some 0, some 6)
  else if n = "case_alpha".toList then some (some 0, some 6)
  else if n = "isbv".toList then some (some 1, some 7)
  else if n = "ipot".toList then some (some 1, some 6)
  else none

end InputSettings

/-- `InputSettings.varNames.index(n)`. -/
def idxOf (n : Str) : ℕ := InputSettings.varNames.indexOf n

/-! ### The element database (external collaborator) -/

/-- One element of the element database (`table1`), with the per-element
defaults the codec consumes. -/
structure Element where
  symbol : Str
  atomic_density : ℚ
  surface_binding_energy : ℚ
  displacement_energy : ℚ
  deriving DecidableEq, Repr

/-- The element database. -/
structure ElementData where
  elements : List Element
  deriving DecidableEq, Repr

/-- `ElementData.elementFromSymbol`: first element with the given symbol. -/
def ElementData.elementFromSymbol (ed : ElementData) (s : Str) : Option Element :=
  ed.elements.find? (fun e => e.symbol = s)

/-! ### `checkValueRange` -/

/-- The kinds of Python scalars handed to `checkValueRange`: a float, a
string (symbol-list entries), or `None` (unfilled indexed slots). -/
inductive PyScalar where
  | qv (q : PyF)
  | sv (s : Str)
  | noneV
  deriving DecidableEq, Repr

/-- Python `p < x` of a float against a finite number (`nan` compares
false against everything). -/
def pyFLtNum (p : PyF) (x : ℚ) : Bool :=
  match p with
  | .fin q => decide (q < x)
  | .inf neg => neg
  | .nan => false

/-- Python `p > x` of a float against a finite number. -/
def pyFGtNum (p : PyF) (x : ℚ) : Bool :=
  match p with
  | .fin q => decide (q > x)
  | .inf neg => ¬ neg
  | .nan => false

/-- Python `p != x` of a float against a finite number (`nan != x` is
`True`). -/
def pyFNeNum (p : PyF) (x : ℚ) : Bool :=
  match p with
  | .fin q => decide (q ≠ x)
  | _ => true

/-- Python `p == x` of a float against a finite number. -/
def pyFEqNum (p : PyF) (x : ℚ) : Bool :=
  match p with
  | .fin q => decide (q = x)
  | _ => false

/-- Python `val < x` against a number: comparing `None` or a string with a
number raises `TypeError`. -/
def pyLtNum (a : PyScalar) (x : ℚ) : Except PyErr Bool :=
  match a with
  | .qv p => .ok (pyFLtNum p x)
  | _ => .error .typeError

/-- Python `val > x` against a number. -/
def pyGtNum (a : PyScalar) (x : ℚ) : Except PyErr Bool :=
  match a with
  | .qv p => .ok (pyFGtNum p x)
  | _ => .error .typeError

/-- `checkValueRange(varName, val)`.  For a variable without a registered
range, returns the value unchanged with an empty message.  For an
out-of-range value the source computes the clamped value and then builds the
alert f-string, which references the name `lineNr` — a name not in scope in
the function — so it raises `NameError` before returning; the clamped
return is unreachable.  In-range values return unchanged with `msg = ''`. -/
def checkValueRange (varName : Str) (val : PyScalar) :
    Except PyErr (PyScalar × Str) :=
  match InputSettings.validRange varName with
  | none => .ok (val, [])
  | some bounds => do
    let below ← match bounds.1 with
      | none => pure false
      | some lv => pyLtNum val lv
    if below then .error .nameError
    else do
      let above ← match bounds.2 with
        | none => pure false
        | some uv => pyGtNum val uv
      if above then .error .nameError
      else .ok (val, [])

/-! ### The decoder (`loadInputFile`) -/

/-- Universal-newline translation of Python's text mode: `\r\n` and a
lone `\r` both become `\n`. -/
def normNewlines : Str → Str
  | [] => []
  | '\r' :: '\n' :: rest => '\n' :: normNewlines rest
  | '\r' :: rest => '\n' :: normNewlines rest
  | c :: rest => c :: normNewlines rest

/-- The lines of a text file as Python's file iteration yields them
(universal newlines, with the line terminators stripped here, as every
consumer strips them): a trailing newline does not produce a final empty
line. -/
def fileLines (text0 : Str) : List Str :=
  let text := normNewlines text0
  if text.getLast? = some '\n' then (splitOnChar '\n' text).dropLast
  else if text = [] then []
  else splitOnChar '\n' text

/-- `re.findall("\(\d+\)", varName)`, first match: scan left to right for a
`(` followed by one or more digits and a `)`; return the number. -/
def findParenIndex : Str → Option ℕ
  | [] => none
  | c :: rest =>
    if c = '(' then
      let ds := rest.takeWhile isDigitCh
      if ds ≠ [] ∧ (rest.drop ds.length).headD ' ' = ')' then
        some (digitsToNat ds)
      else findParenIndex rest
    else findParenIndex rest

/-- Python list assignment `l[i] = x` with negative-index wrap-around;
out of range raises `IndexError`. -/
def pySetAt (l : List α) (i : ℤ) (x : α) : Except PyErr (List α) :=
  if 0 ≤ i then
    if i.toNat < l.length then .ok (l.set i.toNat x) else .error .indexError
  else
    if (-i).toNat ≤ l.length then .ok (l.set (l.length - (-i).toNat) x)
    else .error .indexError

/-- `while len(l) <= eIdx - 1: l.append(None)`. -/
def growWithNone (l : List (Option α)) (eIdx : ℕ) : List (Option α) :=
  l ++ List.replicate (eIdx - l.length) none

/-- Read a list-variable slot as a symbol list (`None` = `[]`; a slot of
any other shape would make the subsequent list operations raise). -/
def getStrList : Option Val → Except PyErr (List (Option Str))
  | none => .ok []
  | some (.strList l) => .ok l
  | some _ => .error .typeError

/-- Read a list-variable slot as a numeric list (`None` = `[]`). -/
def getNumList : Option Val → Except PyErr (List (Option PyF))
  | none => .ok []
  | some (.numList l) => .ok l
  | some _ => .error .typeError

/-- One `occurrence` entry: `[int(d[0]) == 1, int(d[1]) == 1]`. -/
def parseOccPair (d : Str) : Except PyErr (Bool × Bool) :=
  match d with
  | [] => .error .indexError
  | c0 :: rest =>
    match pyIntOfStr? [c0] with
    | none => .error .valueError
    | some n0 =>
      match rest with
      | [] => .error .indexError
      | c1 :: _ =>
        match pyIntOfStr? [c1] with
        | none => .error .valueError
        | some n1 => .ok (n0 = 1, n1 = 1)

/-- `float(d)`, raising `ValueError` on failure. -/
def pyFloatE (d : Str) : Except PyErr PyF :=
  match pyFloat? d with
  | none => .error .valueError
  | some q => .ok q

/-- `float(d)` where the consumer stores the result in a field this model
keeps as an exact rational (the layers loader): a well-formed non-finite
literal, which CPython would store as `nan`/`inf`, is outside the model
here and treated like a malformed one. -/
def pyFloatFinE (d : Str) : Except PyErr ℚ :=
  match pyFloat? d with
  | some (.fin q) => .ok q
  | _ => .error .valueError

/-- Run `checkValueRange` over every entry of a numeric list (results are
discarded — the source loop never writes the clamped value back). -/
def rangeCheckNumList (varName : Str) (l : List (Option PyF)) : Except PyErr Unit :=
  l.forM fun e => do
    let _ ← checkValueRange varName (match e with | none => .noneV | some q => .qv q)
    pure ()

/-- Run `checkValueRange` over every entry of a symbol list. -/
def rangeCheckStrList (varName : Str) (l : List (Option Str)) : Except PyErr Unit :=
  l.forM fun e => do
    let _ ← checkValueRange varName (match e with | none => .noneV | some s => .sv s)
    pure ()

/-- Alert for an unknown variable name. -/
def unknownVarAlert (varName : Str) (lineNr : ℕ) : Str :=
  "Unknown variable \"".toList ++ varName ++ "\" (line ".toList ++
    natDigits (lineNr + 2) ++ ")".toList

/-- Alert for a failed value read (the bare-`except` handler). -/
def failedReadAlert (varName : Str) (lineNr : ℕ) : Str :=
  "Failed to read data for variable \"".toList ++ varName ++ "\" (line ".toList ++
    natDigits (lineNr + 2) ++ ")".toList

/-- Alert for an unknown element symbol (`s` is whatever string the source
interpolates — due to the stale-variable bug this is not always the symbol
that was just read). -/
def symbolUnknownAlert (s : Str) (pos : ℕ) (lineNr : ℕ) : Str :=
  "Element symbol \"".toList ++ s ++ "\" (#".toList ++ natDigits pos ++
    ") unknown, replaced with \"H\" (line ".toList ++ natDigits (lineNr + 2) ++
    ")".toList

/-- The `case_e0 = 4` alert — a plain (non-f) string literal in the source,
so the placeholder appears verbatim. -/
def caseE0Alert : Str :=
  "case_e0=4 is not a valid choice - changed to 0 (line {lineNr+2})".toList

/-- The symbol-replacement loop `for i, s in enumerate(v[idx])`: each entry
not resolvable in the element database is replaced by `'H'` with a
positional alert.  Returns the repaired list and the alerts, in order. -/
def symbolsReplaceAux (ed : ElementData) (lineNr : ℕ) :
    ℕ → List Str → List Str × List Str
  | _, [] => ([], [])
  | i, s :: rest =>
    let r := symbolsReplaceAux ed lineNr (i + 1) rest
    if (ed.elementFromSymbol s).isNone then
      ("H".toList :: r.1, symbolUnknownAlert s (i + 1) lineNr :: r.2)
    else (s :: r.1, r.2)

/-- The body of the `try:` block of `loadInputFile` for one recognised
variable: parse `data` into the slot value.  Returns the new value, the
alerts appended inside the `try`, and the updated leak-prone loop variable
`s` (`sCell`).  An exception here is caught by the bare `except:`. -/
def tryParseValue (ed : ElementData) (lineNr : ℕ) (varName : Str)
    (elementIndex : Option ℕ) (cur : Option Val) (sCell : Option Str)
    (data : List Str) : Except PyErr (Val × List Str × Option Str) :=
  if varName = "occurrence".toList then do
    let pairs ← data.mapM parseOccPair
    .ok (.occList pairs, [], sCell)
  else if varName = "globaldensity".toList then
    let flag := data.headD [] = "True".toList
    match data with
    | _ :: d1 :: _ => do
      let q ← pyFloatE d1
      .ok (.gd flag q, [], sCell)
    | _ => .error .indexError
  else if varName ∈ InputSettings.listVars then
    match elementIndex with
    | some eIdx =>
      if varName = "symbol".toList then do
        let l ← getStrList cur
        let grown := growWithNone l eIdx
        let newSym := strip (dropQuotes (data.headD []))
        let l1 ← pySetAt grown ((eIdx : ℤ) - 1) (some newSym)
        match sCell with
        | none => .error .nameError
        | some s =>
          if (ed.elementFromSymbol s).isNone then do
            let l2 ← pySetAt l1 ((eIdx : ℤ) - 1) (some ("H".toList))
            let _ ← rangeCheckStrList varName l2
            .ok (.strList l2, [symbolUnknownAlert s eIdx lineNr], sCell)
          else do
            let _ ← rangeCheckStrList varName l1
            .ok (.strList l1, [], sCell)
      else do
        let l ← getNumList cur
        let grown := growWithNone l eIdx
        let q ← pyFloatE (data.headD [])
        let l1 ← pySetAt grown ((eIdx : ℤ) - 1) (some q)
        let _ ← rangeCheckNumList varName l1
        .ok (.numList l1, [], sCell)
    | none =>
      if varName = "symbol".toList then do
        let parsed := data.map (fun s => strip (dropQuotes s))
        let r := symbolsReplaceAux ed lineNr 0 parsed
        let _ ← rangeCheckStrList varName (r.1.map some)
        let sCell2 := match parsed.getLast? with
          | none => sCell
          | some x => some x
        .ok (.strList (r.1.map some), r.2, sCell2)
      else do
        let qs ← data.mapM pyFloatE
        let l := qs.map some
        let _ ← rangeCheckNumList varName l
        .ok (.numList l, [], sCell)
  else if varName ∈ InputSettings.boolVars then
    .ok (.b (lowerStr (data.headD []) = ".true.".toList), [], sCell)
  else do
    let q ← pyFloatE (data.headD [])
    let trip : PyF × Bool × List Str :=
      if varName = "idrel".toList ∧ pyFNeNum q 0 then
        (.fin (if pyFLtNum q 0 then -1 else 1), true, [])
      else if varName = "case_e0".toList ∧ pyFEqNum q 4 then
        (.fin 0, true, [caseE0Alert])
      else (q, false, [])
    let _ ← checkValueRange varName (.qv trip.1)
    .ok (.num trip.1 trip.2.1, trip.2.2, sCell)

/-- The mutable state of the line loop of `loadInputFile`. -/
structure LoadState where
  v : List (Option Val)
  alerts : List Str
  additionalSettings : List Str
  sCell : Option Str
  deriving DecidableEq, Repr

/-- The unknown-variable test of `loadInputFile`: skipped (False) when
`InputSettings.allVarNames` is unavailable. -/
def unknownVarCheck (avn : Option (List Str)) (varName : Str) : Bool :=
  match avn with
  | none => false
  | some l => decide (varName ∉ l ++ InputSettings.customVars)

/-- One iteration of the line loop of `loadInputFile`.  `avn` is
`InputSettings.allVarNames` (an explicit parameter here, per the module
state set up by the main window).  A returned `.error` is an uncaught
exception (only the `varName[0]` access on an empty name can produce one
at this level). -/
def processLine (avn : Option (List Str)) (ed : ElementData) (lineNr : ℕ)
    (st : LoadState) (line : Str) : Except PyErr LoadState :=
  let content := (splitOnChar '=' (strip line)).map strip
  let varName0 := content.headD []
  if varName0 = "text".toList ∨ content.length < 2 then .ok st
  else
    match varName0 with
    | [] => .error .indexError
    | c :: restName =>
      let varName1 := if c = '!' then restName else varName0
      if c = '!' ∧ varName1 ∉ InputSettings.customVars then .ok st
      else if InputSettings.ignoredVars.any (fun p => startsWith p varName1) then .ok st
      else
        let elementIndex := findParenIndex varName1
        let varName := (splitOnChar '(' varName1).headD []
        let unknownVar : Bool := unknownVarCheck avn varName
        let alerts1 := if unknownVar then st.alerts ++ [unknownVarAlert varName lineNr]
          else st.alerts
        if unknownVar = true ∨ varName ∉ InputSettings.varNames then
          .ok { st with alerts := alerts1,
                        additionalSettings := st.additionalSettings ++ [strip line] }
        else
          let idx := idxOf varName
          let data := (splitOnChar ',' ((splitOnChar '!' (content.getD 1 [])).headD [])).map strip
          match tryParseValue ed lineNr varName elementIndex (st.v.getD idx none)
              st.sCell data with
          | .ok r =>
            .ok { v := st.v.set idx (some r.1), alerts := alerts1 ++ r.2.1,
                  additionalSettings := st.additionalSettings, sCell := r.2.2 }
          | .error _ =>
            .ok { v := st.v.set idx none,
                  alerts := alerts1 ++ [failedReadAlert varName lineNr],
                  additionalSettings := st.additionalSettings, sCell := st.sCell }

/-- The line loop of `loadInputFile` (`for lineNr, line in enumerate(f)`). -/
def processLines (avn : Option (List Str)) (ed : ElementData) :
    ℕ → LoadState → List Str → Except PyErr LoadState
  | _, st, [] => .ok st
  | lineNr, st, l :: rest => do
    let st' ← processLine avn ed lineNr st l
    processLines avn ed (lineNr + 1) st' rest

/-- Alert for an absent List variable filled with defaults. -/
def missingListAlert (varName : Str) (defaultVar : Option Val) : Str :=
  "Variable \"".toList ++ varName ++ "\" missing! Filled with default values \"".toList ++
    pyStrOfVal defaultVar ++ "\"".toList

/-- Alert for an absent Scalar variable set to its default. -/
def missingScalarAlert (varName : Str) (defaultVar : Option Val) : Str :=
  "Variable \"".toList ++ varName ++ "\" missing! Set to default value \"".toList ++
    pyStrOfVal defaultVar ++ "\"".toList

/-- A registry default as a numeric-list entry. -/
def defaultAsQ : Option Val → Option PyF
  | some (.num q _) => some q
  | _ => none

/-- A registry default as a symbol-list entry. -/
def defaultAsStr : Option Val → Option Str
  | some (.str s) => some s
  | _ => none

/-- One index of the post-parse defaulting pass of `loadInputFile`
(the `for idx in range(len(v))` loop after the line loop). -/
def defaultStep (vst : List (Option Val) × List Str) (idx : ℕ) :
    Except PyErr (List (Option Val) × List Str) :=
  let varName := InputSettings.varNames.getD idx []
  match InputSettings.defaultValues varName with
  | none => .ok vst
  | some defaultVar =>
    if varName ∈ InputSettings.listVars then
      match vst.1.getD idx none with
      | none => do
        let ncpZ ← pyIntOfVal (vst.1.getD 0 none)
        let n := ncpZ.toNat
        let alerts2 :=
          if varName ∉ ["dns0".toList, "e_surfb".toList, "e_displ".toList] then
            vst.2 ++ [missingListAlert varName defaultVar]
          else vst.2
        let filled : Val :=
          if varName = "symbol".toList then
            .strList (List.replicate n (defaultAsStr defaultVar))
          else .numList (List.replicate n (defaultAsQ defaultVar))
        .ok (vst.1.set idx (some filled), alerts2)
      | some cur => do
        let ncpZ ← pyIntOfVal (vst.1.getD 0 none)
        let n := ncpZ.toNat
        match cur with
        | .numList l =>
          let grown := l ++ List.replicate (n - l.length) none
          .ok (vst.1.set idx (some (.numList (grown.map fun e =>
            match e with
            | none => defaultAsQ defaultVar
            | some x => some x))), vst.2)
        | .strList l =>
          let grown := l ++ List.replicate (n - l.length) none
          .ok (vst.1.set idx (some (.strList (grown.map fun e =>
            match e with
            | none => defaultAsStr defaultVar
            | some x => some x))), vst.2)
        | _ => .error .typeError
    else
      match vst.1.getD idx none with
      | some _ => .ok vst
      | none =>
        let alerts2 :=
          if varName ∉ InputSettings.boolVars ++ InputSettings.customVars then
            if varName ≠ "number_calc".toList ∨
                (pyEqNum (vst.1.getD (idxOf ("case_e0".toList)) none) 5 = true ∨
                 pyEqNum (vst.1.getD (idxOf ("case_alpha".toList)) none) 5 = true) then
              vst.2 ++ [missingScalarAlert varName defaultVar]
            else vst.2
          else vst.2
        .ok (vst.1.set idx defaultVar, alerts2)

/-- The whole defaulting pass. -/
def applyDefaults (vst : List (Option Val) × List Str) :
    Except PyErr (List (Option Val) × List Str) :=
  (List.range vst.1.length).foldlM defaultStep vst

/-- The boolean part of the cross-field repair pass, for one of the
`boolVars` (in source order: sweep-mode forcing, then the
`lmatrices`/`idrel` rule, the latter checked even if the first part just
reset the value). -/
def crossFieldBoolStep (vst : List (Option Val) × List Str) (varName : Str) :
    List (Option Val) × List Str :=
  let idx := idxOf varName
  if ¬ truthyOpt (vst.1.getD idx none) then vst
  else
    let vst1 :=
      if pyEqNum (vst.1.getD (idxOf ("case_e0".toList)) none) 5 then
        (vst.1.set idx (some (.b false)),
         vst.2 ++ [varName ++ "=.true. not allowed for case_e0=5 - changed to .false.".toList])
      else if pyEqNum (vst.1.getD (idxOf ("case_alpha".toList)) none) 5 then
        (vst.1.set idx (some (.b false)),
         vst.2 ++ [varName ++ "=.true. not allowed for case_alpha=5 - changed to .false.".toList])
      else vst
    if varName = "lmatrices".toList ∧
        pyEqNum (vst1.1.getD (idxOf ("idrel".toList)) none) 0 = true then
      (vst1.1.set idx (some (.b false)),
       vst1.2 ++ ["lmatrices=.true. not allowed for idrel=0 - changed to .false.".toList])
    else vst1

/-- The cross-field repair pass (`# Check for invalid combinations`).  The
final test reproduces the source verbatim: it compares
`InputSettings.varNames.index('ipot')` — the *position* of `'ipot'` in
`varNames`, a constant — with 3, not the decoded `ipot` value. -/
def crossFieldPass (vst : List (Option Val) × List Str) :
    List (Option Val) × List Str :=
  let vst1 := InputSettings.boolVars.foldl crossFieldBoolStep vst
  let idx := idxOf ("iintegral".toList)
  if pyEqNum (vst1.1.getD idx none) 0 = true ∧ idxOf ("ipot".toList) > 3 then
    (vst1.1.set idx (some (.num (.fin 2) true)),
     vst1.2 ++ ["iintegral=0 not allowed for ipot>3 - changed to 2".toList])
  else vst1

/-- The Settings Model: what `setVars` stores on an `InputSettings`
instance (title, the 30 variable slots in `varNames` order, and the
free-form additional settings). -/
structure InputSettingsM where
  title : Str
  vars : List (Option Val)
  additionalSettings : List Str
  deriving DecidableEq, Repr

/-- `InputSettings.__call__(varName)`. -/
def InputSettingsM.call (m : InputSettingsM) (n : Str) : Option Val :=
  if n ∈ InputSettings.varNames then m.vars.getD (idxOf n) none else none

/-- `loadInputFile(filePath, elementData)`: decode the file contents
(given here as the raw text; the title is the first line, the loop runs
over the remaining lines).  `avn` is `InputSettings.allVarNames`.
A `.error` result is an uncaught exception escaping `loadInputFile`. -/
def loadInputFile (avn : Option (List Str)) (text : Str) (ed : ElementData) :
    Except PyErr (InputSettingsM × List Str) := do
  let ls := fileLines text
  let title := strip (ls.headD [])
  let st0 : LoadState := ⟨List.replicate InputSettings.varNames.length none, [], [], none⟩
  let st ← processLines avn ed 0 st0 ls.tail
  let vst ← applyDefaults (st.v, st.alerts)
  let vst2 := crossFieldPass vst
  .ok (⟨title, vst2.1, st.additionalSettings⟩, vst2.2)

/-! ### Composition entries and target layers (GUI-side data consumed by
the encoder) -/

/-- A target-composition row (`TargetCompEntry`). -/
structure TargetCompEntry where
  element : Element
  maxConcentration : ℚ
  atomicDensity : ℚ
  surfBindEnergy : ℚ
  displEnergy : ℚ
  inelLossModel : ℚ
  deriving DecidableEq, Repr

/-- A beam-composition row (`BeamCompEntry`), extending the target row with
the beam-only fields. -/
structure BeamCompEntry extends TargetCompEntry where
  abundance : ℚ
  kinEnergy : ℚ
  angle : ℚ
  deriving DecidableEq, Repr

/-- A target layer (`TargetLayerEntry` from `TargetLayersTable.py`): the
stored thickness is the per-segment thickness (the class comment: only the
segment thickness is needed for the layers file). -/
structure TargetLayerEntry where
  segmentCount : ℤ
  segmentThickness : ℚ
  abundances : List ℚ
  layerName : Str
  deriving DecidableEq, Repr

/-- Placeholder entries used where the source would raise on malformed
caller input (an element in neither beam nor target, no layers); the
encoder statements assume well-formed input, making these unreachable. -/
def dummyTarget : TargetCompEntry := ⟨⟨[], 0, 0, 0⟩, 0, 0, 0, 0, 0⟩

def dummyBeam : BeamCompEntry := ⟨dummyTarget, 0, 0, 0⟩

def dummyLayer : TargetLayerEntry := ⟨0, 0, [], []⟩

/-- The result of `extractVariables`: the settings model plus the two
fields kept on the instance for the layers writer. -/
structure EncSettings where
  settings : InputSettingsM
  allAbundances : List (List ℚ)
  targetLayers : List TargetLayerEntry
  deriving DecidableEq, Repr

/-- `extractVariables`: build the Settings Model from the GUI state.
Numeric parameters carry an `isInt` flag only through the fixed positions
below (spin-box counts and combo-box indices are Python ints, double-spin
values floats); the flag affects only rendering.  `enableGlobalDensity` is
the checkbox state, `globalDensity` the spin value. -/
def extractVariables (symbols : List Str) (beamComp : List BeamCompEntry)
    (targetComp : List TargetCompEntry) (targetLayers : List TargetLayerEntry)
    (title : Str) (historiesPerUpdate : ℚ) (historiesBetweenOutputs : ℚ)
    (projectilesPerHistory : ℚ) (fluence : ℚ) (calcMethod : ℚ) (interactPot : ℚ)
    (integrationMethod : ℚ) (surfaceBindingModel : ℚ) (kinEnergyType : ℚ)
    (angleType : ℚ) (number_calc : ℚ) (targetThickness : ℚ)
    (targetSegmentsCount : ℚ) (enableGlobalDensity : Bool) (globalDensity : ℚ)
    (outputReflected : Bool) (outputSputtered : Bool) (outputMatrices : Bool)
    (additionalSettings : List Str) : EncSettings :=
  let customDensities := ¬ ((beamComp.all fun e => e.element.atomic_density = e.atomicDensity) ∧
    (targetComp.all fun e => e.element.atomic_density = e.atomicDensity))
  let customSurfBindEnergies := ¬ ((beamComp.all fun e => e.element.surface_binding_energy = e.surfBindEnergy) ∧
    (targetComp.all fun e => e.element.surface_binding_energy = e.surfBindEnergy))
  let customDisplEnergies := ¬ ((beamComp.all fun e => e.element.displacement_energy = e.displEnergy) ∧
    (targetComp.all fun e => e.element.displacement_energy = e.displEnergy))
  let beamIdxOf := fun (sym : Str) => beamComp.findIdx? (fun b => b.element.symbol = sym)
  let targetIdxOf := fun (sym : Str) => targetComp.findIdx? (fun t => t.element.symbol = sym)
  let occurrence := symbols.map fun sym =>
    [(if (beamIdxOf sym).isSome then '1' else '0'),
     (if (targetIdxOf sym).isSome then '1' else '0')]
  let bcOf := fun (sym : Str) => beamComp.getD ((beamIdxOf sym).getD 0) dummyBeam
  let tcOf := fun (sym : Str) => targetComp.getD ((targetIdxOf sym).getD 0) dummyTarget
  let inel0 := symbols.map fun sym =>
    if (beamIdxOf sym).isSome then (bcOf sym).inelLossModel + 1
    else (tcOf sym).inelLossModel + 1
  let qubeam := symbols.map fun sym =>
    if (beamIdxOf sym).isSome then (bcOf sym).abundance else 0
  let e0 := symbols.map fun sym =>
    if (beamIdxOf sym).isSome then (bcOf sym).kinEnergy else 0
  let alpha0 := symbols.map fun sym =>
    if (beamIdxOf sym).isSome then (bcOf sym).angle else 0
  let qumax := symbols.map fun sym =>
    if (beamIdxOf sym).isSome then (bcOf sym).maxConcentration
    else (tcOf sym).maxConcentration
  let qu := symbols.map fun sym =>
    if (targetIdxOf sym).isSome then
      (targetLayers.headD dummyLayer).abundances.getD (((targetIdxOf sym)).getD 0) 0
    else 0
  let dns0 := if customDensities then
      symbols.map fun sym =>
        if (targetIdxOf sym).isSome then (tcOf sym).atomicDensity
        else (bcOf sym).atomicDensity
    else []
  let e_surfb := if customSurfBindEnergies then
      symbols.map fun sym =>
        if (targetIdxOf sym).isSome then (tcOf sym).surfBindEnergy
        else (bcOf sym).surfBindEnergy
    else []
  let e_displ := if customDisplEnergies then
      symbols.map fun sym =>
        if (targetIdxOf sym).isSome then (tcOf sym).displEnergy
        else (bcOf sym).displEnergy
    else []
  let allAbundances := targetLayers.map fun layer =>
    symbols.map fun sym =>
      if (targetIdxOf sym).isSome then layer.abundances.getD ((targetIdxOf sym).getD 0) 0
      else 0
  let nqx := targetSegmentsCount
  let iq0 : ℚ := if targetLayers.length > 1 then -1 else 0
  let ncp : ℚ := symbols.length
  let vars : List (Option Val) :=
    [some (.num (.fin ncp) true),
     some (.strList (symbols.map some)),
     some (.numList (dns0.map fun x => some (.fin x))),
     some (.numList (e_surfb.map fun x => some (.fin x))),
     some (.numList (e_displ.map fun x => some (.fin x))),
     some (.occStrs occurrence),
     some (.gd enableGlobalDensity (.fin globalDensity)),
     some (.numList (inel0.map fun x => some (.fin x))),
     some (.num (.fin historiesPerUpdate) true),
     some (.num (.fin historiesBetweenOutputs) true),
     some (.num (.fin projectilesPerHistory) true),
     some (.num (.fin fluence) false),
     some (.num (.fin calcMethod) true),
     some (.num (.fin interactPot) true),
     some (.num (.fin integrationMethod) true),
     some (.num (.fin surfaceBindingModel) true),
     some (.numList (qubeam.map fun x => some (.fin x))),
     some (.num (.fin kinEnergyType) true),
     some (.numList (e0.map fun x => some (.fin x))),
     some (.num (.fin angleType) true),
     some (.numList (alpha0.map fun x => some (.fin x))),
     some (.num (.fin number_calc) true),
     some (.numList (qu.map fun x => some (.fin x))),
     some (.numList (qumax.map fun x => some (.fin x))),
     some (.num (.fin targetThickness) false),
     some (.num (.fin nqx) true),
     some (.num (.fin iq0) true),
     some (.b outputReflected),
     some (.b outputSputtered),
     some (.b outputMatrices)]
  ⟨⟨title, vars, additionalSettings⟩, allAbundances, targetLayers⟩

/-! ### The config writer (`getWriteInputFileString`) -/

/-- `InputSettings.getHeader(title)`. -/
def getHeader (title : Str) : Str :=
  "text='---".toList ++ title ++ "---'".toList

/-- `", ".join(xs)`. -/
def joinComma (xs : List Str) : Str := List.intercalate (", ".toList) xs

/-- `str(e)` of one element of a settings list value. -/
def renderListEntries : Val → List Str
  | .numList l => l.map fun e => pyStrOfVal (e.map fun q => .num q false)
  | .strList l => l.map fun e => pyStrOfVal (e.map .str)
  | .occStrs l => l
  | .occList l => l.map fun p =>
      "[".toList ++ pyStrOfVal (some (.b p.1)) ++ ", ".toList ++
        pyStrOfVal (some (.b p.2)) ++ "]".toList
  | .gd flag dens => [pyStrOfVal (some (.b flag)), pyNumStr dens false]
  | v => [pyStrOfVal (some v)]

/-- Whether a settings value is an empty list (`len(v) == 0`). -/
def isEmptyListVal : Option Val → Bool
  | some (.numList l) => l.isEmpty
  | some (.strList l) => l.isEmpty
  | some (.occStrs l) => l.isEmpty
  | some (.occList l) => l.isEmpty
  | _ => false

/-- The numeric content of a settings value (0 where CPython would raise a
`TypeError`; used only for the `ioutput_part` companion lines, where the
model is consumed under encoder-produced well-formedness). -/
def numOrZero : Option Val → ℚ
  | some (.num (.fin q) _) => q
  | some (.b x) => if x then 1 else 0
  | _ => 0

/-- The text contributed to the input file by variable `i` of the model
(block header, optional `ioutput_part` companion line, and the variable
line itself; empty for skipped variables). -/
def writeVarText (m : InputSettingsM) (i : ℕ) : Str :=
  let n := InputSettings.varNames.getD i []
  let v := m.vars.getD i none
  if n ∈ ["dns0".toList, "e_surfb".toList, "e_displ".toList] ∧ isEmptyListVal v then []
  else
    let headerPart : Str := match InputSettings.blockStarts n with
      | some t => "\n".toList ++ getHeader t ++ "\n".toList
      | none => []
    if n ∈ InputSettings.boolVars then
      let ioPart : Str :=
        if n = "lparticle_p".toList ∧ truthyOpt v then
          "\tioutput_part(2) = ".toList ++
            pyIntStr (ratTrunc (numOrZero (m.call ("nh".toList)) *
              numOrZero (m.call ("nr_pproj".toList)))) ++ "\n".toList
        else if n = "lparticle_r".toList ∧ truthyOpt v then
          "\tioutput_part(5) = ".toList ++
            pyIntStr (ratTrunc (100 * numOrZero (m.call ("nh".toList)) *
              numOrZero (m.call ("nr_pproj".toList)))) ++ "\n".toList
        else []
      let boolStr : Str := if truthyOpt v then ".true.".toList else ".false.".toList
      headerPart ++ ioPart ++ "\t".toList ++ n ++ " = ".toList ++ boolStr ++ "\n".toList
    else
      let isList0 : Bool := n ∈ InputSettings.listVars
      let isCustom : Bool := n ∈ InputSettings.customVars
      let nOut := if isCustom then '!' :: n else n
      let isList : Bool := isList0 || isCustom
      let entries := match v with
        | some vv =>
          if n = "symbol".toList then
            (renderListEntries vv).map fun s => '"' :: (s ++ "\"".toList)
          else renderListEntries vv
        | none => ["None".toList]
      if n = "number_calc".toList ∧ ¬ pyEqNum (m.call ("case_e0".toList)) 5 = true ∧
          ¬ pyEqNum (m.call ("case_alpha".toList)) 5 = true then headerPart
      else
        headerPart ++ "\t".toList ++ nOut ++ " = ".toList ++
          (if isList then joinComma entries else pyStrOfVal v) ++ "\n".toList

/-- `getWriteInputFileString`: the full input-file text. -/
def getWriteInputFileString (m : InputSettingsM) : Str :=
  let intro := m.title ++ "\n&TRI_INP\n".toList ++ getHeader ("elements".toList) ++ "\n".toList
  let varPart := ((List.range InputSettings.varNames.length).map (writeVarText m)).foldl
    (fun a b => a ++ b) []
  let extraPart : Str :=
    if m.additionalSettings ≠ [] then
      "\n".toList ++ getHeader ("extra".toList) ++ "\n".toList ++
        (m.additionalSettings.map fun l => "\t".toList ++ l ++ "\n".toList).foldl
          (fun a b => a ++ b) []
    else []
  intro ++ varPart ++ extraPart ++ "\n/".toList

/-! ### The layers writer and loader -/

/-- Round half to even (the rounding of Python's fixed-point formatting). -/
def roundHalfEven (x : ℚ) : ℤ :=
  let f := ⌊x⌋
  let r := x - f
  if r < 1 / 2 then f
  else if r > 1 / 2 then f + 1
  else if f % 2 = 0 then f else f + 1

/-- Python `f'{x:.2f}'` on the model's exact rationals. -/
def fmt2 (x : ℚ) : Str :=
  let n := roundHalfEven (x * 100)
  (if x < 0 then ['-'] else []) ++
    natDigits (n.natAbs / 100) ++ '.' :: natDigitsFixed 2 n.natAbs

/-- Python `f'{n:6}'`: an int right-aligned in (at least) 6 columns. -/
def fmtIntWidth (w : ℕ) (n : ℤ) : Str :=
  let s := pyIntStr n
  List.replicate (w - s.length) ' ' ++ s

/-- `''.join(xs)`. -/
def joinAll (xs : List Str) : Str := xs.foldl (fun a b => a ++ b) []

/-- `getWriteLayersFileString`: the layers-file text (header rows, one row
per layer with the per-segment thickness and the abundances of elements
2..ncp, and the `end` sentinel row). -/
def getWriteLayersFileString (e : EncSettings) : Str :=
  let ncp := (ratTrunc (numOrZero (e.settings.call ("ncp".toList)))).toNat
  let elementTitles := joinAll ((List.range (ncp - 1)).map fun i =>
    "qu_".toList ++ natDigits (i + 2) ++ "\t".toList)
  let header := "number of\tthick-\ttarget composition 2...ncp\tname of layer\n".toList ++
    "layers\t\tness\t".toList ++ elementTitles ++ "\n".toList
  let rows := joinAll ((List.range e.targetLayers.length).map fun i =>
    let layer := e.targetLayers.getD i dummyLayer
    let abundanceString := joinAll (((List.range ncp).drop 1).map fun j =>
      fmt2 ((e.allAbundances.getD i []).getD j 0) ++ "\t".toList)
    fmtIntWidth 6 layer.segmentCount ++ "\t\t".toList ++ fmt2 layer.segmentThickness ++
      "\t".toList ++ abundanceString ++ "\t".toList ++ layer.layerName ++ "\n".toList)
  let zeros := joinAll ((List.range (ncp - 1)).map fun _ => "0.00\t".toList)
  header ++ rows ++
    fmtIntWidth 6 0 ++ "\t\t".toList ++ fmt2 0 ++ "\t".toList ++ zeros ++
      "\t".toList ++ "end".toList

/-- `' '.join(xs)`. -/
def joinSpace (xs : List Str) : Str := List.intercalate [' '] xs

/-- `loadLayersFile(filePath)`: skip the first header line, take the number
of stored abundance columns from the second, then parse every remaining
line *except the last* into a layer entry; the first element's abundance is
reconstructed as 1 minus the sum of the stored ones. -/
def loadLayersFile (text : Str) : Except PyErr (List TargetLayerEntry) := do
  let ls := fileLines text
  let line2 := ls.getD 1 []
  let ncp_sub1 := ((splitWS line2).drop 2).length
  let rows := ((ls.drop 2).map fun l => splitWS (strip l)).dropLast
  rows.mapM fun l => do
    let allAb ← ((l.drop 2).take ncp_sub1).mapM pyFloatFinE
    match l with
    | [] => .error .indexError
    | t0 :: rest0 =>
      match pyIntOfStr? t0 with
      | none => .error .valueError
      | some seg =>
        match rest0 with
        | [] => .error .indexError
        | t1 :: _ => do
          let thick ← pyFloatFinE t1
          let abundances := (1 - allAb.sum) :: allAb
          .ok ⟨seg, thick, abundances, joinSpace (l.drop (2 + ncp_sub1))⟩

/-! ### Test fixture: a two-element database -/

/-- A small element database (hydrogen and helium) used by the concrete
evaluations. -/
def dbHHe : ElementData :=
  ⟨[⟨"H".toList, 423 / 10000, 1, 5⟩, ⟨"He".toList, 1 / 100, 2, 5⟩]⟩

/-! ### Invariants of the line loop -/

/-- Typing invariant of one variable slot: what shapes a filled slot can
have, given the registry class of the variable living at that index. -/
def SlotInv (i : ℕ) (o : Option Val) : Prop :=
  match o with
  | none => True
  | some v =>
    (InputSettings.varNames.getD i [] = "ncp".toList → ∃ q f, v = .num q f) ∧
    (InputSettings.varNames.getD i [] ∈ InputSettings.listVars →
      (∃ l, v = .numList l) ∨ (∃ l, v = .strList l)) ∧
    (InputSettings.varNames.getD i [] ∈ InputSettings.boolVars → ∃ x, v = .b x)

/-- The alert strings the line loop can append. -/
def ParseAlertOK (k : ℕ) (a : Str) : Prop :=
  (∃ nm, a = unknownVarAlert nm k) ∨ (∃ nm, a = failedReadAlert nm k) ∨
    (∃ s p, a = symbolUnknownAlert s p k) ∨ a = caseE0Alert

/-- The three optional arrays whose silent absence is expected. -/
def optionalArrays : List Str := ["dns0".toList, "e_surfb".toList, "e_displ".toList]

/-- The possible defaulting-pass alerts contributed by index `j`. -/
def DefaultAlertAt (j : ℕ) (a : Str) : Prop :=
  ∃ dv, InputSettings.defaultValues (InputSettings.varNames.getD j []) = some dv ∧
    ((a = missingListAlert (InputSettings.varNames.getD j []) dv ∧
      InputSettings.varNames.getD j [] ∉ optionalArrays) ∨
     (a = missingScalarAlert (InputSettings.varNames.getD j []) dv ∧
      InputSettings.varNames.getD j [] ∉ InputSettings.listVars))

/-- The names that have a registry default (all of `varNames` except
`occurrence`). -/
def defaultsDomain : List Str :=
  ["ncp".toList, "symbol".toList, "dns0".toList, "e_surfb".toList, "e_displ".toList,
   "globaldensity".toList, "inel0".toList, "nh".toList, "idout".toList,
   "nr_pproj".toList, "flc".toList, "idrel".toList, "ipot".toList,
   "iintegral".toList, "isbv".toList, "qubeam".toList, "case_e0".toList,
   "e0".toList, "case_alpha".toList, "alpha0".toList, "number_calc".toList,
   "qu".toList, "qumax".toList, "ttarget".toList, "nqx".toList, "iq0".toList,
   "lparticle_p".toList, "lparticle_r".toList, "lmatrices".toList]

/-! ### Concrete fixtures for the claim instances -/

/-- Hydrogen, as in the element database fixture. -/
def elH : Element := ⟨"H".toList, 423 / 10000, 1, 5⟩

/-- Helium, as in the element database fixture. -/
def elHe : Element := ⟨"He".toList, 1 / 100, 2, 5⟩

/-- A beam row (H) that customizes density, surface binding and
displacement energy. -/
def beam1 : List BeamCompEntry := [⟨⟨elH, 1, 5 / 100, 2, 6, 2⟩, 1, 500, 0⟩]

/-- A target row (He) that customizes density, surface binding and
displacement energy. -/
def targ1 : List TargetCompEntry := [⟨elHe, 1, 2 / 100, 3, 7, 2⟩]

/-- One target layer. -/
def layers1 : List TargetLayerEntry := [⟨10, 5, [1], "layer1".toList⟩]

/-- A representative encoder run (all registry defaults that matter left at
their default-compatible values: `iintegral = 2`, `number_calc = 19`). -/
def enc1 : EncSettings :=
  extractVariables ["H".toList, "He".toList] beam1 targ1 layers1 ("t".toList)
    100 (-1) 10 1 1 1 2 1 0 0 19 2000 100 false 1 false false false []

/-- The same composition encoded with the fast integration method
(`iintegral = 0`) and a non-default `number_calc`. -/
def enc0 : EncSettings :=
  extractVariables ["H".toList, "He".toList] beam1 targ1 layers1 ("t".toList)
    100 (-1) 10 1 1 1 0 1 0 0 30 2000 100 false 1 false false false []

/-- A beam row (H) with no deviation from the element-database defaults. -/
def beamND : List BeamCompEntry :=
  [⟨⟨elH, 1, 423 / 10000, 1, 5, 2⟩, 1, 500, 0⟩]

/-- A target row (He) with no deviation from the element-database defaults. -/
def targND : List TargetCompEntry := [⟨elHe, 1, 1 / 100, 2, 5, 2⟩]

/-- The no-deviation composition, encoded. -/
def encND : EncSettings :=
  extractVariables ["H".toList, "He".toList] beamND targND layers1 ("t".toList)
    100 (-1) 10 1 1 1 2 1 0 0 19 2000 100 false 1 false false false []

/-- An encoder run whose layer has 25 segments of thickness 2/5 (so the
total thickness 25 · 0.4 = 10 differs from the per-segment 0.4). -/
def enc9 : EncSettings :=
  extractVariables ["H".toList, "He".toList] beam1 targ1
    [⟨25, 2 / 5, [1], "lay".toList⟩] ("t".toList)
    100 (-1) 10 1 1 1 2 1 0 0 19 2000 100 false 1 false false false []

/-- A line whose name part is empty while an `=` is present. -/
def inputC2 : Str := "t\n= 5".toList

/-- An input assigning `ncp = nan` (a well-formed CPython float literal). -/
def inputC2b : Str := "t\nncp = nan\n".toList

/-- An input assigning `ncp` a decimal literal that overflows `float`. -/
def inputC2c : Str := "t\nncp = 1e400\n".toList

/-- An input with `inel0` below its registered range `[1, 6]`. -/
def inputC3 : Str := "t\ninel0 = 0\n".toList

/-- A title-only input file. -/
def inputC4 : Str := "t".toList

/-- A complete input with `case_e0 = 5` and both particle-tracking
booleans `.true.`. -/
def inputC5 : Str :=
  ("t\nncp = 2\nsymbol = \"H\", \"He\"\ninel0 = 3, 3\nnh = 100\nidout = -1\n" ++
   "nr_pproj = 10\nflc = 1.0\nidrel = 1\nipot = 1\niintegral = 2\nisbv = 1\n" ++
   "qubeam = 1.0, 0.0\ncase_e0 = 5\ne0 = 500.0, 0.0\ncase_alpha = 0\n" ++
   "alpha0 = 0.0, 0.0\nnumber_calc = 30\nqu = 0.0, 1.0\nqumax = 1.0, 1.0\n" ++
   "ttarget = 2000.0\nnqx = 100\niq0 = 0\nlparticle_p = .true.\n" ++
   "lparticle_r = .true.\nlmatrices = .false.\n").toList

/-- The same complete input with the roles of the case selectors swapped:
`case_e0 = 0`, `case_alpha = 5`, both particle-tracking booleans `.true.`. -/
def inputC5b : Str :=
  ("t\nncp = 2\nsymbol = \"H\", \"He\"\ninel0 = 3, 3\nnh = 100\nidout = -1\n" ++
   "nr_pproj = 10\nflc = 1.0\nidrel = 1\nipot = 1\niintegral = 2\nisbv = 1\n" ++
   "qubeam = 1.0, 0.0\ncase_e0 = 0\ne0 = 500.0, 0.0\ncase_alpha = 5\n" ++
   "alpha0 = 0.0, 0.0\nnumber_calc = 30\nqu = 0.0, 1.0\nqumax = 1.0, 1.0\n" ++
   "ttarget = 2000.0\nnqx = 100\niq0 = 0\nlparticle_p = .true.\n" ++
   "lparticle_r = .true.\nlmatrices = .false.\n").toList

/-- An input with a low-order potential and the fast integration method. -/
def inputC6 : Str := "t\nipot = 2\niintegral = 0\n".toList

/-- An indexed `symbol(2) =` assignment of an unknown symbol, after a valid
whole-list assignment. -/
def inputC7 : Str := "t\nncp = 2\nsymbol = \"H\", \"He\"\nsymbol(2) = \"XX\"\n".toList

/-- The same unknown symbol given in the whole-list form. -/
def inputC7b : Str := "t\nncp = 2\nsymbol = \"H\", \"XX\"\n".toList

/-- An input with `inel0` inside its registered range. -/
def inputC3b : Str := "t\ninel0 = 3, 3\n".toList

/-- A layers file with two header lines, one data row and the sentinel
row (50 segments of thickness 10, stored abundance 0.50). -/
def inputC10 : Str :=
  ("h1\nlayers\t\tness\tqu_2\n    50\t\t10.00\t0.50\tlayer1\n" ++
   "     0\t\t0.00\t0.00\tend\n").toList

/-- The spec's notion of value equality between decoded and encoded
settings values (Python `==`): numbers compare by value, ignoring the
int/float rendering flag; everything else structurally. -/
def specValueEq : Option Val → Option Val → Bool
  | some (.num a _), some (.num b _) => a = b
  | a, b => a = b

theorem splitOnChar_ne_nil (sep : Char) (s : Str) : splitOnChar sep s ≠ [] := by
  cases s with
  | nil => simp [splitOnChar]
  | cons c cs =>
    simp only [splitOnChar]
    split
    · simp
    · split <;> simp

theorem digitsToNat_foldl_init (t : Str) (a : ℕ) :
    t.foldl (fun x c => x * 10 + digitVal c) a = a * 10 ^ t.length + digitsToNat t := by
  induction t generalizing a with
  | nil => simp [digitsToNat]
  | cons c cs ih =>
    simp only [List.foldl_cons, digitsToNat]
    rw [ih (a * 10 + digitVal c), ih (0 * 10 + digitVal c)]
    simp [List.length_cons, pow_succ]
    ring

theorem digitsToNat_append (s t : Str) :
    digitsToNat (s ++ t) = digitsToNat s * 10 ^ t.length + digitsToNat t := by
  simp only [digitsToNat, List.foldl_append]
  exact digitsToNat_foldl_init t _

theorem digitChar_isDigit (n : ℕ) (h : n < 10) : isDigitCh (digitChar n) = true := by
  interval_cases n <;> decide

theorem digitChar_val (n : ℕ) (h : n < 10) : digitVal (digitChar n) = n := by
  interval_cases n <;> decide

theorem natDigitsAux_spec (fuel n : ℕ) (h : n < fuel) :
    digitsToNat (natDigitsAux fuel n) = n ∧
    natDigitsAux fuel n ≠ [] ∧
    (∀ c ∈ natDigitsAux fuel n, isDigitCh c = true) := by
  induction fuel generalizing n with
  | zero => omega
  | succ f ih =>
    simp only [natDigitsAux]
    by_cases hn : n < 10
    · have hd := digitChar_isDigit n hn
      have hv := digitChar_val n hn
      simp [hn, digitsToNat, hv, hd]
    · have hlt : n / 10 < f := by omega
      obtain ⟨ih1, ih2, ih3⟩ := ih (n / 10) hlt
      have hm : n % 10 < 10 := Nat.mod_lt _ (by omega)
      have hd := digitChar_isDigit (n % 10) hm
      have hv := digitChar_val (n % 10) hm
      refine ⟨?_, by simp [hn], ?_⟩
      · simp only [hn, if_false]
        rw [digitsToNat_append, ih1]
        simp [digitsToNat, hv]
        omega
      · simp only [hn, if_false]
        intro c hc
        rcases List.mem_append.1 hc with hcm | hcm
        · exact ih3 c hcm
        · simp at hcm; subst hcm; exact hd

theorem natDigits_roundtrip (n : ℕ) : digitsToNat (natDigits n) = n :=
  (natDigitsAux_spec (n + 1) n (by omega)).1

theorem natDigits_ne_nil (n : ℕ) : natDigits n ≠ [] :=
  (natDigitsAux_spec (n + 1) n (by omega)).2.1

theorem natDigits_allDigits (n : ℕ) : ∀ c ∈ natDigits n, isDigitCh c = true :=
  (natDigitsAux_spec (n + 1) n (by omega)).2.2

theorem natDigitsFixed_length (k n : ℕ) : (natDigitsFixed k n).length = k := by
  induction k generalizing n with
  | zero => rfl
  | succ k ih => simp [natDigitsFixed, ih]

theorem natDigitsFixed_allDigits (k n : ℕ) :
    ∀ c ∈ natDigitsFixed k n, isDigitCh c = true := by
  induction k generalizing n with
  | zero => simp [natDigitsFixed]
  | succ k ih =>
    intro c hc
    simp only [natDigitsFixed] at hc
    rcases List.mem_append.1 hc with h | h
    · exact ih _ c h
    · simp at h; subst h
      exact digitChar_isDigit _ (Nat.mod_lt _ (by omega))

theorem natDigitsFixed_roundtrip (k n : ℕ) :
    digitsToNat (natDigitsFixed k n) = n % 10 ^ k := by
  induction k generalizing n with
  | zero => simp [natDigitsFixed, digitsToNat, Nat.mod_one]
  | succ k ih =>
    simp only [natDigitsFixed]
    rw [digitsToNat_append, ih]
    have hv := digitChar_val (n % 10) (Nat.mod_lt _ (by omega))
    simp only [digitsToNat, List.foldl_cons, List.foldl_nil, List.length_cons,
      List.length_nil, hv, pow_one, Nat.zero_mul, Nat.zero_add]
    have hc : 0 < 10 ^ k := Nat.pos_pow_of_pos k (by omega)
    have hmod : n % 10 ^ (k + 1) = 10 * (n / 10 % 10 ^ k) + n % 10 := by
      conv_lhs => rw [← Nat.div_add_mod n 10]
      rw [pow_succ, mul_comm (10 ^ k) 10]
      rw [Nat.add_mod, Nat.mul_mod_mul_left]
      have h1 : n % 10 % (10 * 10 ^ k) = n % 10 :=
        Nat.mod_eq_of_lt (lt_of_lt_of_le (Nat.mod_lt _ (by omega)) (by nlinarith))
      rw [h1]
      exact Nat.mod_eq_of_lt (by
        have := Nat.mod_lt (n / 10) hc
        have := Nat.mod_lt n (show 0 < 10 by omega)
        nlinarith)
    omega

/-! ### Round-trip lemmas for the numeral renderers and parsers -/

theorem isDigitCh_facts {c : Char} (h : isDigitCh c = true) :
    pyWhitespace c = false ∧ c ≠ 'e' ∧ c ≠ 'E' ∧ c ≠ '.' ∧ c ≠ '-' ∧ c ≠ '+' := by
  simp only [isDigitCh, Bool.and_eq_true, decide_eq_true_eq] at h
  refine ⟨?_, ?_, ?_, ?_, ?_, ?_⟩
  · simp only [pyWhitespace, Bool.or_eq_false_iff, decide_eq_false_iff_not]
    refine ⟨⟨⟨⟨⟨?_, ?_⟩, ?_⟩, ?_⟩, ?_⟩, ?_⟩ <;>
      (intro hc; subst hc; revert h; decide)
  all_goals (intro hc; subst hc; revert h; decide)

theorem toLower_digit {c : Char} (h : isDigitCh c = true) : Char.toLower c = c := by
  simp only [isDigitCh, Bool.and_eq_true, decide_eq_true_eq] at h
  simp only [Char.toLower]
  rw [if_neg (by omega)]

theorem lowerStr_fixed : ∀ l : Str, (∀ c ∈ l, Char.toLower c = c) → lowerStr l = l := by
  intro l
  induction l with
  | nil => intro _; rfl
  | cons c t ih =>
    intro hall
    show Char.toLower c :: lowerStr t = c :: t
    rw [hall c (List.mem_cons_self c t), ih (fun x hx => hall x (List.mem_cons_of_mem c hx))]

theorem strip_noop {s : Str} (h : ∀ c ∈ s, pyWhitespace c = false) : strip s = s := by
  have h1 : s.dropWhile pyWhitespace = s :=
    List.dropWhile_eq_self_iff.2 (by
      cases s with
      | nil => simp
      | cons a t => simp [h a (by simp)])
  have h2 : s.reverse.dropWhile pyWhitespace = s.reverse :=
    List.dropWhile_eq_self_iff.2 (by
      cases hs : s.reverse with
      | nil => simp
      | cons a t =>
        have : a ∈ s := by
          have : a ∈ s.reverse := by rw [hs]; simp
          simpa using this
        simp [h a this])
  simp [strip, h1, h2]

theorem splitExpAux_no_e {s : Str} (h : ∀ c ∈ s, c ≠ 'e' ∧ c ≠ 'E') :
    splitExpAux s = (s, none) := by
  induction s with
  | nil => rfl
  | cons c t ih =>
    have hc := h c (by simp)
    simp only [splitExpAux]
    rw [if_neg (by simp [hc.1, hc.2])]
    rw [ih (fun x hx => h x (by simp [hx]))]

theorem splitOnChar_no_sep {sep : Char} {s : Str} (h : ∀ c ∈ s, c ≠ sep) :
    splitOnChar sep s = [s] := by
  induction s with
  | nil => rfl
  | cons c t ih =>
    simp only [splitOnChar]
    rw [if_neg (h c (by simp)), ih (fun x hx => h x (by simp [hx]))]

theorem splitOnChar_append_sep {sep : Char} {a b : Str} (h : ∀ c ∈ a, c ≠ sep) :
    splitOnChar sep (a ++ sep :: b) = a :: splitOnChar sep b := by
  induction a with
  | nil => simp [splitOnChar]
  | cons c t ih =>
    simp only [List.cons_append, splitOnChar]
    rw [if_neg (h c (by simp)), List.append_eq, ih (fun x hx => h x (by simp [hx]))]

theorem parseSign_minus (t : Str) : parseSign ('-' :: t) = (true, t) := rfl

theorem parseSign_of_digit {c : Char} {t : Str} (h : isDigitCh c = true) :
    parseSign (c :: t) = (false, c :: t) := by
  obtain ⟨-, -, -, -, h5, h6⟩ := isDigitCh_facts h
  simp [parseSign, h5, h6]

theorem pyInt?_pyIntStr (n : ℤ) : pyIntOfStr? (pyIntStr n) = some n := by
  have hdig := natDigits_allDigits n.natAbs
  have hne := natDigits_ne_nil n.natAbs
  have hall : allDigits (natDigits n.natAbs) = true := List.all_eq_true.2 hdig
  by_cases hn : n < 0
  · have hstr : pyIntStr n = '-' :: natDigits n.natAbs := by
      simp [pyIntStr, hn]
    have hnws : ∀ c ∈ pyIntStr n, pyWhitespace c = false := by
      rw [hstr]
      intro c hc
      rcases List.mem_cons.1 hc with h | h
      · subst h; decide
      · exact (isDigitCh_facts (hdig c h)).1
    unfold pyIntOfStr?
    rw [strip_noop hnws, hstr, parseSign_minus]
    rw [if_pos ⟨hne, hall⟩]
    simp only [if_pos, natDigits_roundtrip]
    congr 1
    omega
  · have hstr : pyIntStr n = natDigits n.natAbs := by
      simp [pyIntStr, hn]
    have hnws : ∀ c ∈ pyIntStr n, pyWhitespace c = false := by
      rw [hstr]
      intro c hc
      exact (isDigitCh_facts (hdig c hc)).1
    unfold pyIntOfStr?
    rw [strip_noop hnws, hstr]
    cases hd : natDigits n.natAbs with
    | nil => exact absurd hd hne
    | cons c t =>
      rw [parseSign_of_digit (hdig c (by rw [hd]; simp))]
      rw [← hd]
      rw [if_pos ⟨hne, hall⟩]
      simp only [Bool.false_eq_true, if_false, natDigits_roundtrip]
      congr 1
      omega

theorem multOf_pow_dvd (p n : ℕ) : n ≠ 0 → p ^ multOf p n ∣ n := by
  suffices h : ∀ fuel m, m ≤ fuel → m ≠ 0 → p ^ multAux p fuel m ∣ m from
    fun hn => h n n le_rfl hn
  intro fuel
  induction fuel with
  | zero => intro m hm hn; omega
  | succ f ih =>
    intro m hm hn
    simp only [multAux]
    split
    · next hcond =>
      obtain ⟨hp2, -, hmod⟩ := hcond
      have hdvd : p ∣ m := Nat.dvd_of_mod_eq_zero hmod
      have hmp : m / p ≤ f := by
        have h1 : m / p < m := Nat.div_lt_self (by omega) (by omega)
        omega
      have hne : m / p ≠ 0 := by
        intro h0
        have := Nat.div_mul_cancel hdvd
        rw [h0] at this
        omega
      have := ih (m / p) hmp hne
      rw [pow_succ]
      calc p ^ multAux p f (m / p) * p ∣ (m / p) * p :=
            mul_dvd_mul_right this p
        _ = m := Nat.div_mul_cancel hdvd
    · simp

theorem decimalDen_dvd (d : ℕ) (_hd : d ≠ 0) (h : decimalDen d = true) :
    d ∣ 10 ^ decExp d := by
  simp only [decimalDen, decide_eq_true_eq] at h
  set K := decExp d with hK
  set a := multOf 2 d with ha_def
  set b := multOf 5 d with hb_def
  have ha : a ≤ K := by rw [hK]; simp only [decExp, ← ha_def, ← hb_def]; omega
  have hb : b ≤ K := by rw [hK]; simp only [decExp, ← ha_def, ← hb_def]; omega
  have h2 : (2 : ℕ) ^ a ∣ 2 ^ K := pow_dvd_pow 2 ha
  have h5 : (5 : ℕ) ^ b ∣ 5 ^ K := pow_dvd_pow 5 hb
  have h10 : (10 : ℕ) ^ K = 2 ^ K * 5 ^ K := by
    rw [← Nat.mul_pow]
  calc d = 2 ^ a * 5 ^ b := h.symm
    _ ∣ 2 ^ K * 5 ^ K := mul_dvd_mul h2 h5
    _ = 10 ^ K := h10.symm

theorem pyFloatStr_shape (q : ℚ) (h : decimalDen q.den = true) :
    pyFloatStr q =
      (if q < 0 then ['-'] else []) ++
        (natDigits (q.num.natAbs * 10 ^ decExp q.den / q.den / 10 ^ decExp q.den) ++
          '.' :: natDigitsFixed (decExp q.den) (q.num.natAbs * 10 ^ decExp q.den / q.den)) := by
  unfold pyFloatStr
  rw [if_pos h]

theorem parseMantissa?_eq_two {s ip fp : Str} (hs : splitOnChar '.' s = [ip, fp]) :
    parseMantissa? s =
      if (ip ≠ [] ∨ fp ≠ []) ∧ allDigits ip = true ∧ allDigits fp = true then
        some ((digitsToNat ip : ℚ) + (digitsToNat fp : ℚ) / 10 ^ fp.length)
      else none := by
  unfold parseMantissa?
  rw [hs]

theorem parseMantissa?_eq_one {s ip : Str} (hs : splitOnChar '.' s = [ip]) :
    parseMantissa? s =
      if ip ≠ [] ∧ allDigits ip = true then some ((digitsToNat ip : ℚ)) else none := by
  unfold parseMantissa?
  rw [hs]

theorem pyFloat?_pyFloatStr (q : ℚ) (h : decimalDen q.den = true)
    (hov : pyOverflows ((q.num.natAbs : ℚ) / (q.den : ℚ)) = false) :
    pyFloat? (pyFloatStr q) = some (.fin q) := by
  set k := decExp q.den with hk
  set scaled := q.num.natAbs * 10 ^ k / q.den with hscaled_def
  set ds1 := natDigits (scaled / 10 ^ k) with hds1
  set ds2 := natDigitsFixed k scaled with hds2
  set body := ds1 ++ '.' :: ds2 with hbody
  have hden_ne : q.den ≠ 0 := q.den_nz
  have hdvd : q.den ∣ 10 ^ k := decimalDen_dvd q.den hden_ne h
  have hscaled : scaled * q.den = q.num.natAbs * 10 ^ k := by
    rw [hscaled_def]
    exact Nat.div_mul_cancel (Dvd.dvd.mul_left hdvd _)
  have hdig1 : ∀ c ∈ ds1, isDigitCh c = true := by
    rw [hds1]; exact natDigits_allDigits (scaled / 10 ^ k)
  have hne1 : ds1 ≠ [] := by rw [hds1]; exact natDigits_ne_nil (scaled / 10 ^ k)
  have hdig2 : ∀ c ∈ ds2, isDigitCh c = true := by
    rw [hds2]; exact natDigitsFixed_allDigits k scaled
  have hbody_ws : ∀ c ∈ body, pyWhitespace c = false := by
    intro c hc
    rw [hbody] at hc
    rcases List.mem_append.1 hc with hm | hm
    · exact (isDigitCh_facts (hdig1 c hm)).1
    · rcases List.mem_cons.1 hm with hm | hm
      · subst hm; decide
      · exact (isDigitCh_facts (hdig2 c hm)).1
  have hbody_noe : ∀ c ∈ body, c ≠ 'e' ∧ c ≠ 'E' := by
    intro c hc
    rw [hbody] at hc
    rcases List.mem_append.1 hc with hm | hm
    · exact ⟨(isDigitCh_facts (hdig1 c hm)).2.1, (isDigitCh_facts (hdig1 c hm)).2.2.1⟩
    · rcases List.mem_cons.1 hm with hm | hm
      · subst hm; exact ⟨by decide, by decide⟩
      · exact ⟨(isDigitCh_facts (hdig2 c hm)).2.1, (isDigitCh_facts (hdig2 c hm)).2.2.1⟩
  have hlower : lowerStr body = body := by
    refine lowerStr_fixed body ?_
    intro c hc
    rw [hbody] at hc
    rcases List.mem_append.1 hc with hm | hm
    · exact toLower_digit (hdig1 c hm)
    · rcases List.mem_cons.1 hm with hm | hm
      · subst hm; decide
      · exact toLower_digit (hdig2 c hm)
  have hhead : ∃ c t2, body = c :: t2 ∧ isDigitCh c = true := by
    cases hd : ds1 with
    | nil => exact absurd hd hne1
    | cons c t =>
      exact ⟨c, t ++ '.' :: ds2, by rw [hbody, hd, List.cons_append],
        hdig1 c (by rw [hd]; exact List.mem_cons_self c t)⟩
  obtain ⟨c0, t2, hb2, hdg0⟩ := hhead
  have hnotnan : ¬(lowerStr body = "nan".toList) := by
    rw [hlower, hb2]
    intro heq
    have heq' : c0 :: t2 = ['n', 'a', 'n'] := heq
    injection heq' with h1 _
    rw [h1] at hdg0
    exact absurd hdg0 (by decide)
  have hnotinf : ¬(lowerStr body = "inf".toList ∨ lowerStr body = "infinity".toList) := by
    rw [hlower, hb2]
    rintro (heq | heq)
    · have heq' : c0 :: t2 = ['i', 'n', 'f'] := heq
      injection heq' with h1 _
      rw [h1] at hdg0
      exact absurd hdg0 (by decide)
    · have heq' : c0 :: t2 = ['i', 'n', 'f', 'i', 'n', 'i', 't', 'y'] := heq
      injection heq' with h1 _
      rw [h1] at hdg0
      exact absurd hdg0 (by decide)
  have hsplit_dot : splitOnChar '.' body = [ds1, ds2] := by
    rw [hbody, splitOnChar_append_sep (fun c hc => (isDigitCh_facts (hdig1 c hc)).2.2.2.1)]
    rw [splitOnChar_no_sep (fun c hc => (isDigitCh_facts (hdig2 c hc)).2.2.2.1)]
  have hmant : parseMantissa? body = some ((digitsToNat ds1 : ℚ) +
      (digitsToNat ds2 : ℚ) / 10 ^ ds2.length) := by
    rw [parseMantissa?_eq_two hsplit_dot]
    rw [if_pos ⟨Or.inl hne1, List.all_eq_true.2 hdig1, List.all_eq_true.2 hdig2⟩]
  have hval1 : digitsToNat ds1 = scaled / 10 ^ k := by
    rw [hds1, natDigits_roundtrip]
  have hval2 : digitsToNat ds2 = scaled % 10 ^ k := by
    rw [hds2, natDigitsFixed_roundtrip]
  have hlen2 : ds2.length = k := by rw [hds2, natDigitsFixed_length]
  have h10 : ((10 : ℚ)) ^ k ≠ 0 := pow_ne_zero _ (by norm_num)
  have hdenQ : ((q.den : ℚ)) ≠ 0 := Nat.cast_ne_zero.2 hden_ne
  have hsq : (scaled : ℚ) * (q.den : ℚ) = (q.num.natAbs : ℚ) * 10 ^ k := by
    exact_mod_cast congrArg (fun n : ℕ => (n : ℚ)) hscaled
  have hsum : ((scaled / 10 ^ k : ℕ) : ℚ) * 10 ^ k + ((scaled % 10 ^ k : ℕ) : ℚ) =
      (scaled : ℚ) := by
    have h0 := congrArg (fun n : ℕ => (n : ℚ)) (Nat.div_add_mod scaled (10 ^ k))
    push_cast at h0
    linarith [h0]
  have hmv : (digitsToNat ds1 : ℚ) + (digitsToNat ds2 : ℚ) / 10 ^ ds2.length =
      (q.num.natAbs : ℚ) / (q.den : ℚ) := by
    rw [hval1, hval2, hlen2]
    have hstep : ((scaled / 10 ^ k : ℕ) : ℚ) + ((scaled % 10 ^ k : ℕ) : ℚ) / 10 ^ k =
        (scaled : ℚ) / 10 ^ k := by
      rw [eq_div_iff h10, add_mul, div_mul_cancel₀ _ h10, hsum]
    rw [hstep, div_eq_div_iff h10 hdenQ, hsq]
  have hovm : ¬(pyOverflows ((q.num.natAbs : ℚ) / (q.den : ℚ)) = true) := by
    simp [hov]
  have habs_neg : q < 0 → ((q.num.natAbs : ℚ)) = -(q.num : ℚ) := by
    intro hq
    have hnum_neg : ((q.num : ℚ)) < 0 := by
      exact_mod_cast Rat.num_neg.2 hq
    rw [Int.cast_natAbs, Int.cast_abs]
    exact abs_of_neg hnum_neg
  have habs_pos : ¬q < 0 → ((q.num.natAbs : ℚ)) = (q.num : ℚ) := by
    intro hq
    have hnum_nonneg : (0 : ℚ) ≤ (q.num : ℚ) := by
      exact_mod_cast Rat.num_nonneg.2 (not_lt.1 hq)
    rw [Int.cast_natAbs, Int.cast_abs]
    exact abs_of_nonneg hnum_nonneg
  have hstr : pyFloatStr q = (if q < 0 then ['-'] else []) ++ body := by
    rw [pyFloatStr_shape q h, hbody, hds1, hds2, hscaled_def, hk]
  by_cases hq : q < 0
  · have hstr2 : pyFloatStr q = '-' :: body := by
      rw [hstr, if_pos hq, List.singleton_append]
    have hws2 : ∀ c ∈ pyFloatStr q, pyWhitespace c = false := by
      rw [hstr2]
      intro c hc
      rcases List.mem_cons.1 hc with hm | hm
      · subst hm; decide
      · exact hbody_ws c hm
    unfold pyFloat?
    rw [strip_noop hws2, hstr2, parseSign_minus]
    dsimp only
    rw [if_neg hnotnan, if_neg hnotinf]
    rw [splitExpAux_no_e hbody_noe]
    dsimp only
    rw [hmant]
    dsimp only
    rw [hmv, if_neg hovm]
    rw [if_pos rfl, habs_neg hq, neg_div, neg_neg, Rat.num_div_den]
  · have hstr2 : pyFloatStr q = body := by
      rw [hstr, if_neg hq, List.nil_append]
    have hws2 : ∀ c ∈ pyFloatStr q, pyWhitespace c = false := by
      rw [hstr2]; exact hbody_ws
    unfold pyFloat?
    rw [strip_noop hws2, hstr2]
    cases hd : ds1 with
    | nil => exact absurd hd hne1
    | cons c t =>
      have hbody2 : body = c :: (t ++ '.' :: ds2) := by
        rw [hbody, hd, List.cons_append]
      rw [hbody2, parseSign_of_digit (hdig1 c (by rw [hd]; simp)), ← hbody2]
      dsimp only
      rw [if_neg hnotnan, if_neg hnotinf]
      rw [splitExpAux_no_e hbody_noe]
      dsimp only
      rw [hmant]
      dsimp only
      rw [hmv, if_neg hovm]
      rw [if_neg (by simp), habs_pos hq, Rat.num_div_den]

theorem getD_set_self (v : List (Option Val)) (i : ℕ) (x : Option Val)
    (h : i < v.length) : (v.set i x).getD i none = x := by
  simp [List.getD, List.getElem?_set_eq_of_lt x h]

theorem getD_set_ne (v : List (Option Val)) (i j : ℕ) (x : Option Val)
    (h : i ≠ j) : (v.set i x).getD j none = v.getD j none := by
  simp [List.getD, List.getElem?_set_ne h]

theorem length_set_eq (v : List (Option Val)) (i : ℕ) (x : Option Val) :
    (v.set i x).length = v.length := List.length_set v i x

/-! ### Shape of the values produced by `tryParseValue` -/

theorem bind_eq_ok {α β : Type} {x : Except PyErr α} {f : α → Except PyErr β} {r : β}
    (h : (x >>= f) = .ok r) : ∃ a, x = .ok a ∧ f a = .ok r := by
  cases x with
  | error e => simp [Bind.bind, Except.bind] at h
  | ok a => exact ⟨a, rfl, by simpa [Bind.bind, Except.bind] using h⟩

theorem symbolsReplaceAux_alerts (ed : ElementData) (k : ℕ) :
    ∀ (i : ℕ) (l : List Str), ∀ a ∈ (symbolsReplaceAux ed k i l).2,
      ∃ s p, a = symbolUnknownAlert s p k := by
  intro i l
  induction l generalizing i with
  | nil => simp [symbolsReplaceAux]
  | cons s rest ih =>
    intro a ha
    simp only [symbolsReplaceAux] at ha
    by_cases hf : (ed.elementFromSymbol s).isNone
    · rw [if_pos hf] at ha
      rcases List.mem_cons.1 ha with h | h
      · exact ⟨s, i + 1, h⟩
      · exact ih (i + 1) a h
    · rw [if_neg hf] at ha
      exact ih (i + 1) a ha

/-- The complete characterisation of a successful `tryParseValue`: the
shape of the produced value per variable class, and the possible forms of
the alerts it appends. -/
theorem tryParseValue_out {n : Str} {ed : ElementData} {k : ℕ} {eI : Option ℕ}
    {cur : Option Val} {sC : Option Str} {data : List Str}
    {r : Val × List Str × Option Str}
    (hok : tryParseValue ed k n eI cur sC data = .ok r) :
    (n = "occurrence".toList → ∃ l, r.1 = .occList l) ∧
    (n = "globaldensity".toList → ∃ f q, r.1 = .gd f q) ∧
    (n ∈ InputSettings.listVars → (∃ l, r.1 = .numList l) ∨ (∃ l, r.1 = .strList l)) ∧
    (n ∈ InputSettings.boolVars → ∃ x, r.1 = .b x) ∧
    ((n ≠ "occurrence".toList ∧ n ≠ "globaldensity".toList ∧
      n ∉ InputSettings.listVars ∧ n ∉ InputSettings.boolVars) → ∃ q f, r.1 = .num q f) ∧
    (∀ a ∈ r.2.1, (∃ s p, a = symbolUnknownAlert s p k) ∨ a = caseE0Alert) := by
  unfold tryParseValue at hok
  by_cases hocc : n = "occurrence".toList
  · rw [if_pos hocc] at hok
    obtain ⟨ps, -, hok⟩ := bind_eq_ok hok
    cases hok
    subst hocc
    refine ⟨fun _ => ⟨ps, rfl⟩, fun h => absurd h (by decide), fun h => absurd h (by decide),
      fun h => absurd h (by decide), fun h => absurd rfl h.1, by simp⟩
  · rw [if_neg hocc] at hok
    by_cases hgd : n = "globaldensity".toList
    · rw [if_pos hgd] at hok
      subst hgd
      cases data with
      | nil => exact absurd hok (by simp)
      | cons d0 rest =>
        cases rest with
        | nil => exact absurd hok (by simp)
        | cons d1 rest2 =>
          obtain ⟨q, -, hok⟩ := bind_eq_ok hok
          cases hok
          refine ⟨fun h => absurd h (by decide), fun _ => ⟨_, q, rfl⟩,
            fun h => absurd h (by decide), fun h => absurd h (by decide),
            fun h => absurd rfl h.2.1, by simp⟩
    · rw [if_neg hgd] at hok
      by_cases hlist : n ∈ InputSettings.listVars
      · rw [if_pos hlist] at hok
        have goalOf : ∀ (res : Val × List Str × Option Str),
            ((∃ l, res.1 = .numList l) ∨ (∃ l, res.1 = .strList l)) →
            (∀ a ∈ res.2.1, (∃ s p, a = symbolUnknownAlert s p k) ∨ a = caseE0Alert) →
            (n = "occurrence".toList → ∃ l, res.1 = .occList l) ∧
            (n = "globaldensity".toList → ∃ f q, res.1 = .gd f q) ∧
            (n ∈ InputSettings.listVars → (∃ l, res.1 = .numList l) ∨ (∃ l, res.1 = .strList l)) ∧
            (n ∈ InputSettings.boolVars → ∃ x, res.1 = .b x) ∧
            ((n ≠ "occurrence".toList ∧ n ≠ "globaldensity".toList ∧
              n ∉ InputSettings.listVars ∧ n ∉ InputSettings.boolVars) → ∃ q f, res.1 = .num q f) ∧
            (∀ a ∈ res.2.1, (∃ s p, a = symbolUnknownAlert s p k) ∨ a = caseE0Alert) := by
          intro res hshape halerts
          have hbool : n ∉ InputSettings.boolVars := by
            intro hb
            revert hlist
            fin_cases hb <;> decide
          exact ⟨fun h => absurd h hocc, fun h => absurd h hgd, fun _ => hshape,
            fun h => absurd h hbool, fun h => absurd hlist h.2.2.1, halerts⟩
        cases eI with
        | some eIdx =>
          try dsimp only at hok
          by_cases hsym : n = "symbol".toList
          · rw [if_pos hsym] at hok
            obtain ⟨l, -, hok⟩ := bind_eq_ok hok
            obtain ⟨l1, -, hok⟩ := bind_eq_ok hok
            cases sC with
            | none => exact absurd hok (by simp)
            | some s =>
              try dsimp only at hok
              by_cases hfs : (ed.elementFromSymbol s).isNone = true
              · rw [if_pos hfs] at hok
                obtain ⟨l2, -, hok⟩ := bind_eq_ok hok
                cases hrc : rangeCheckStrList n l2 with
                | error e => rw [hrc] at hok; simp [Bind.bind, Except.bind] at hok
                | ok u =>
                  rw [hrc] at hok
                  simp only [Bind.bind, Except.bind] at hok
                  cases hok
                  exact goalOf _ (Or.inr ⟨l2, rfl⟩) (by
                    intro a ha
                    simp only [List.mem_singleton] at ha
                    exact Or.inl ⟨s, eIdx, ha⟩)
              · rw [if_neg hfs] at hok
                cases hrc : rangeCheckStrList n l1 with
                | error e => rw [hrc] at hok; simp [Bind.bind, Except.bind] at hok
                | ok u =>
                  rw [hrc] at hok
                  simp only [Bind.bind, Except.bind] at hok
                  cases hok
                  exact goalOf _ (Or.inr ⟨l1, rfl⟩) (by simp)
          · rw [if_neg hsym] at hok
            obtain ⟨l, -, hok⟩ := bind_eq_ok hok
            obtain ⟨q, -, hok⟩ := bind_eq_ok hok
            obtain ⟨l1, -, hok⟩ := bind_eq_ok hok
            cases hrc : rangeCheckNumList n l1 with
            | error e => rw [hrc] at hok; simp [Bind.bind, Except.bind] at hok
            | ok u =>
              rw [hrc] at hok
              simp only [Bind.bind, Except.bind] at hok
              cases hok
              exact goalOf _ (Or.inl ⟨l1, rfl⟩) (by simp)
        | none =>
          try dsimp only at hok
          by_cases hsym : n = "symbol".toList
          · rw [if_pos hsym] at hok
            cases hrc : rangeCheckStrList n
                ((symbolsReplaceAux ed k 0 (data.map fun s => strip (dropQuotes s))).1.map some) with
            | error e => rw [hrc] at hok; simp [Bind.bind, Except.bind] at hok
            | ok u =>
              rw [hrc] at hok
              simp only [Bind.bind, Except.bind] at hok
              cases hok
              exact goalOf _ (Or.inr ⟨_, rfl⟩) (by
                intro a ha
                exact Or.inl (symbolsReplaceAux_alerts ed k 0 _ a ha))
          · rw [if_neg hsym] at hok
            obtain ⟨qs, -, hok⟩ := bind_eq_ok hok
            cases hrc : rangeCheckNumList n (qs.map some) with
            | error e => rw [hrc] at hok; simp [Bind.bind, Except.bind] at hok
            | ok u =>
              rw [hrc] at hok
              simp only [Bind.bind, Except.bind] at hok
              cases hok
              exact goalOf _ (Or.inl ⟨_, rfl⟩) (by simp)
      · rw [if_neg hlist] at hok
        by_cases hbool : n ∈ InputSettings.boolVars
        · rw [if_pos hbool] at hok
          cases hok
          exact ⟨fun h => absurd h hocc, fun h => absurd h hgd, fun h => absurd h hlist,
            fun _ => ⟨_, rfl⟩, fun h => absurd hbool h.2.2.2, by simp⟩
        · rw [if_neg hbool] at hok
          obtain ⟨q, -, hok⟩ := bind_eq_ok hok
          try dsimp only at hok
          cases hrc : checkValueRange n (.qv (if n = "idrel".toList ∧ pyFNeNum q 0 then
              ((.fin (if pyFLtNum q 0 then -1 else 1) : PyF), true, ([] : List Str))
            else if n = "case_e0".toList ∧ pyFEqNum q 4 then
              ((.fin 0 : PyF), true, [caseE0Alert])
            else (q, false, [])).1) with
          | error e => rw [hrc] at hok; simp [Bind.bind, Except.bind] at hok
          | ok u =>
            rw [hrc] at hok
            simp only [Bind.bind, Except.bind] at hok
            cases hok
            refine ⟨fun h => absurd h hocc, fun h => absurd h hgd, fun h => absurd h hlist,
              fun h => absurd h hbool, fun _ => ⟨_, _, rfl⟩, ?_⟩
            intro a ha
            dsimp only at ha
            split at ha
            · simp at ha
            · split at ha
              · simp only [List.mem_singleton] at ha
                exact Or.inr ha
              · simp at ha

theorem slotInv_none (i : ℕ) : SlotInv i none := trivial

theorem getD_idxOf {n : Str} (h : n ∈ InputSettings.varNames) :
    InputSettings.varNames.getD (idxOf n) [] = n := by
  fin_cases h <;> rfl

/-- Everything a successful `processLine` step guarantees: the slot vector
keeps its length, the slot typing invariant is preserved, and any alert it
appends has one of the four line-level shapes. -/
theorem processLine_out {avn : Option (List Str)} {ed : ElementData} {k : ℕ}
    {st : LoadState} {line : Str} {st' : LoadState}
    (h : processLine avn ed k st line = .ok st') :
    st'.v.length = st.v.length ∧
    ((∀ i, SlotInv i (st.v.getD i none)) → ∀ i, SlotInv i (st'.v.getD i none)) ∧
    (∀ a ∈ st'.alerts, a ∈ st.alerts ∨ ParseAlertOK k a) := by
  unfold processLine at h
  try dsimp only at h
  by_cases h1 : ((splitOnChar '=' (strip line)).map strip).headD [] = "text".toList ∨
      ((splitOnChar '=' (strip line)).map strip).length < 2
  · rw [if_pos h1] at h
    cases h
    exact ⟨rfl, fun hi => hi, fun a ha => Or.inl ha⟩
  · rw [if_neg h1] at h
    cases hv0 : ((splitOnChar '=' (strip line)).map strip).headD [] with
    | nil => rw [hv0] at h; exact absurd h (by simp)
    | cons c restName =>
      rw [hv0] at h
      try dsimp only at h
      set v1 : Str := if c = '!' then restName else c :: restName with hv1
      by_cases h2 : c = '!' ∧ v1 ∉ InputSettings.customVars
      · rw [if_pos h2] at h
        cases h
        exact ⟨rfl, fun hi => hi, fun a ha => Or.inl ha⟩
      · rw [if_neg h2] at h
        by_cases h3 : (InputSettings.ignoredVars.any fun p => startsWith p v1) = true
        · rw [if_pos h3] at h
          cases h
          exact ⟨rfl, fun hi => hi, fun a ha => Or.inl ha⟩
        · rw [if_neg h3] at h
          try dsimp only at h
          set varName := (splitOnChar '(' v1).headD [] with hvn
          by_cases h4 : unknownVarCheck avn varName = true ∨ varName ∉ InputSettings.varNames
          · rw [if_pos h4] at h
            cases h
            refine ⟨rfl, fun hi => hi, fun a ha => ?_⟩
            by_cases hu : unknownVarCheck avn varName = true
            · rw [if_pos hu] at ha
              rcases List.mem_append.1 ha with hm | hm
              · exact Or.inl hm
              · simp only [List.mem_singleton] at hm
                exact Or.inr (Or.inl ⟨varName, hm⟩)
            · rw [if_neg hu] at ha
              exact Or.inl ha
          · rw [if_neg h4] at h
            push_neg at h4
            obtain ⟨hunk_f, hmem⟩ := h4
            rw [if_neg hunk_f] at h
            cases htr : tryParseValue ed k varName (findParenIndex v1)
                (st.v.getD (idxOf varName) none) st.sCell
                ((splitOnChar ',' ((splitOnChar '!'
                  (((splitOnChar '=' (strip line)).map strip).getD 1 [])).headD [])).map strip) with
            | ok r =>
              rw [htr] at h
              try dsimp only at h
              cases h
              have hout := tryParseValue_out htr
              refine ⟨length_set_eq _ _ _, fun hi i => ?_, fun a ha => ?_⟩
              · by_cases hii : idxOf varName = i
                · subst hii
                  by_cases hlt : idxOf varName < st.v.length
                  · rw [getD_set_self _ _ _ hlt]
                    have hgn := getD_idxOf hmem
                    refine ⟨fun hncp => ?_, fun hl => ?_, fun hb => ?_⟩
                    · rw [hgn] at hncp
                      exact hout.2.2.2.2.1 (by rw [hncp]; decide)
                    · rw [hgn] at hl
                      exact hout.2.2.1 hl
                    · rw [hgn] at hb
                      exact hout.2.2.2.1 hb
                  · rw [List.getD_eq_getElem?_getD, List.getElem?_eq_none (by
                      rw [List.length_set]; omega), Option.getD_none]
                    exact trivial
                · rw [getD_set_ne _ _ _ _ hii]
                  exact hi i
              · rcases List.mem_append.1 ha with hm | hm
                · exact Or.inl hm
                · rcases hout.2.2.2.2.2 a hm with hs | hc
                  · exact Or.inr (Or.inr (Or.inr (Or.inl hs)))
                  · exact Or.inr (Or.inr (Or.inr (Or.inr hc)))
            | error e =>
              rw [htr] at h
              try dsimp only at h
              cases h
              refine ⟨length_set_eq _ _ _, fun hi i => ?_, fun a ha => ?_⟩
              · by_cases hii : idxOf varName = i
                · subst hii
                  by_cases hlt : idxOf varName < st.v.length
                  · rw [getD_set_self _ _ _ hlt]
                    exact trivial
                  · rw [List.getD_eq_getElem?_getD, List.getElem?_eq_none (by
                      rw [List.length_set]; omega), Option.getD_none]
                    exact trivial
                · rw [getD_set_ne _ _ _ _ hii]
                  exact hi i
              · rcases List.mem_append.1 ha with hm | hm
                · exact Or.inl hm
                · simp only [List.mem_singleton] at hm
                  exact Or.inr (Or.inr (Or.inl ⟨varName, hm⟩))

theorem processLines_out {avn : Option (List Str)} {ed : ElementData} :
    ∀ {lines : List Str} {k : ℕ} {st st' : LoadState},
    processLines avn ed k st lines = .ok st' →
    st'.v.length = st.v.length ∧
    ((∀ i, SlotInv i (st.v.getD i none)) → ∀ i, SlotInv i (st'.v.getD i none)) ∧
    (∀ a ∈ st'.alerts, a ∈ st.alerts ∨ ∃ k2, ParseAlertOK k2 a) := by
  intro lines
  induction lines with
  | nil =>
    intro k st st' h
    cases h
    exact ⟨rfl, fun hi => hi, fun a ha => Or.inl ha⟩
  | cons l rest ih =>
    intro k st st' h
    unfold processLines at h
    obtain ⟨st1, h1, h2⟩ := bind_eq_ok h
    obtain ⟨e1, e2, e3⟩ := processLine_out h1
    obtain ⟨f1, f2, f3⟩ := ih h2
    refine ⟨f1.trans e1, fun hi => f2 (e2 hi), fun a ha => ?_⟩
    rcases f3 a ha with hm | hm
    · rcases e3 a hm with hm2 | hm2
      · exact Or.inl hm2
      · exact Or.inr ⟨k, hm2⟩
    · exact Or.inr hm

theorem not_in_both_bool_list {n : Str} (hb : n ∈ InputSettings.boolVars) :
    n ∉ InputSettings.listVars := by
  intro hl
  simp only [InputSettings.boolVars, List.mem_cons, List.not_mem_nil, or_false] at hb
  rcases hb with h | h | h <;> (subst h; revert hl; decide)

theorem boolVar_default {n : Str} (hb : n ∈ InputSettings.boolVars) :
    InputSettings.defaultValues n = some (some (.b false)) := by
  simp only [InputSettings.boolVars, List.mem_cons, List.not_mem_nil, or_false] at hb
  rcases hb with h | h | h <;> (subst h; rfl)

/-- Everything a successful `defaultStep` at index `j` guarantees. -/
theorem defaultStep_out {vst vst' : List (Option Val) × List Str} {j : ℕ}
    (h : defaultStep vst j = .ok vst') :
    vst'.1.length = vst.1.length ∧
    (∀ i, i ≠ j → vst'.1.getD i none = vst.1.getD i none) ∧
    (vst.1.getD j none ≠ none → vst'.1.getD j none ≠ none) ∧
    (j < vst.1.length →
      InputSettings.defaultValues (InputSettings.varNames.getD j []) ≠ none →
      (InputSettings.varNames.getD j [] ∉ InputSettings.listVars →
        InputSettings.defaultValues (InputSettings.varNames.getD j []) ≠ some none) →
      vst'.1.getD j none ≠ none) ∧
    (SlotInv j (vst.1.getD j none) → SlotInv j (vst'.1.getD j none)) ∧
    (∀ a ∈ vst'.2, a ∈ vst.2 ∨ ∃ dv,
      InputSettings.defaultValues (InputSettings.varNames.getD j []) = some dv ∧
      ((a = missingListAlert (InputSettings.varNames.getD j []) dv ∧
        InputSettings.varNames.getD j [] ∉ optionalArrays) ∨
       (a = missingScalarAlert (InputSettings.varNames.getD j []) dv ∧
        InputSettings.varNames.getD j [] ∉ InputSettings.listVars))) := by
  unfold defaultStep at h
  try dsimp only at h
  cases hdv : InputSettings.defaultValues (InputSettings.varNames.getD j []) with
  | none =>
    rw [hdv] at h
    try dsimp only at h
    cases h
    exact ⟨rfl, fun i _ => rfl, fun hx => hx, fun _ hne _ => absurd rfl hne,
      fun hi => hi, fun a ha => Or.inl ha⟩
  | some dv =>
    rw [hdv] at h
    try dsimp only at h
    by_cases hl : InputSettings.varNames.getD j [] ∈ InputSettings.listVars
    · rw [if_pos hl] at h
      cases hcur : vst.1.getD j none with
      | none =>
        rw [hcur] at h
        try dsimp only at h
        obtain ⟨ncpZ, -, h⟩ := bind_eq_ok h
        cases h
        refine ⟨length_set_eq _ _ _, fun i hij => getD_set_ne _ _ _ _ (fun hc => hij hc.symm),
          fun hx => absurd rfl hx, fun hjlen _ _ => ?_, fun _ => ?_, fun a ha => ?_⟩
        · rw [getD_set_self _ _ _ hjlen]
          simp
        · by_cases hjlen : j < vst.1.length
          · rw [getD_set_self _ _ _ hjlen]
            refine ⟨fun hncp => ?_, fun _ => ?_, fun hb => ?_⟩
            · rw [hncp] at hl
              exact absurd hl (by decide)
            · by_cases hsym : InputSettings.varNames.getD j [] = "symbol".toList
              · rw [if_pos hsym]
                exact Or.inr ⟨_, rfl⟩
              · rw [if_neg hsym]
                exact Or.inl ⟨_, rfl⟩
            · exact absurd hl (not_in_both_bool_list hb)
          · rw [List.getD_eq_getElem?_getD, List.getElem?_eq_none (by
              rw [List.length_set]; omega), Option.getD_none]
            exact trivial
        · by_cases hfam : InputSettings.varNames.getD j [] ∈ optionalArrays
          · rw [if_neg (show ¬(InputSettings.varNames.getD j [] ∉
                ["dns0".toList, "e_surfb".toList, "e_displ".toList]) from not_not_intro hfam)] at ha
            exact Or.inl ha
          · rw [if_pos (show InputSettings.varNames.getD j [] ∉
                ["dns0".toList, "e_surfb".toList, "e_displ".toList] from hfam)] at ha
            rcases List.mem_append.1 ha with hm | hm
            · exact Or.inl hm
            · simp only [List.mem_singleton] at hm
              exact Or.inr ⟨dv, rfl, Or.inl ⟨hm, hfam⟩⟩
      | some cur =>
        rw [hcur] at h
        try dsimp only at h
        obtain ⟨ncpZ, -, h⟩ := bind_eq_ok h
        cases cur with
        | numList l =>
          try dsimp only at h
          cases h
          refine ⟨length_set_eq _ _ _, fun i hij => getD_set_ne _ _ _ _ (fun hc => hij hc.symm),
            fun _ => ?_, fun hjlen _ _ => ?_, fun _ => ?_, fun a ha => Or.inl ha⟩
          · by_cases hjlen : j < vst.1.length
            · rw [getD_set_self _ _ _ hjlen]; simp
            · rw [List.getD_eq_getElem?_getD, List.getElem?_eq_none (by
                rw [List.length_set]; omega), Option.getD_none]
              rw [List.getD_eq_getElem?_getD, List.getElem?_eq_none (by omega),
                Option.getD_none] at hcur
              exact absurd hcur.symm (by simp)
          · rw [getD_set_self _ _ _ hjlen]; simp
          · by_cases hjlen : j < vst.1.length
            · rw [getD_set_self _ _ _ hjlen]
              refine ⟨fun hncp => ?_, fun _ => Or.inl ⟨_, rfl⟩, fun hb => ?_⟩
              · rw [hncp] at hl
                exact absurd hl (by decide)
              · exact absurd hl (not_in_both_bool_list hb)
            · rw [List.getD_eq_getElem?_getD, List.getElem?_eq_none (by
                rw [List.length_set]; omega), Option.getD_none]
              exact trivial
        | strList l =>
          try dsimp only at h
          cases h
          refine ⟨length_set_eq _ _ _, fun i hij => getD_set_ne _ _ _ _ (fun hc => hij hc.symm),
            fun _ => ?_, fun hjlen _ _ => ?_, fun _ => ?_, fun a ha => Or.inl ha⟩
          · by_cases hjlen : j < vst.1.length
            · rw [getD_set_self _ _ _ hjlen]; simp
            · rw [List.getD_eq_getElem?_getD, List.getElem?_eq_none (by
                rw [List.length_set]; omega), Option.getD_none]
              rw [List.getD_eq_getElem?_getD, List.getElem?_eq_none (by omega),
                Option.getD_none] at hcur
              exact absurd hcur.symm (by simp)
          · rw [getD_set_self _ _ _ hjlen]; simp
          · by_cases hjlen : j < vst.1.length
            · rw [getD_set_self _ _ _ hjlen]
              refine ⟨fun hncp => ?_, fun _ => Or.inr ⟨_, rfl⟩, fun hb => ?_⟩
              · rw [hncp] at hl
                exact absurd hl (by decide)
              · exact absurd hl (not_in_both_bool_list hb)
            · rw [List.getD_eq_getElem?_getD, List.getElem?_eq_none (by
                rw [List.length_set]; omega), Option.getD_none]
              exact trivial
        | num q f => simp at h
        | b x => simp at h
        | str s => simp at h
        | occList l => simp at h
        | occStrs l => simp at h
        | gd fl d => simp at h
    · rw [if_neg hl] at h
      cases hcur : vst.1.getD j none with
      | some cur =>
        rw [hcur] at h
        try dsimp only at h
        cases h
        exact ⟨rfl, fun i _ => rfl, fun _ => by rw [hcur]; simp, fun _ _ _ => by rw [hcur]; simp,
          fun hi => hcur.symm ▸ hi, fun a ha => Or.inl ha⟩
      | none =>
        rw [hcur] at h
        try dsimp only at h
        cases h
        refine ⟨length_set_eq _ _ _, fun i hij => getD_set_ne _ _ _ _ (fun hc => hij hc.symm),
          fun hx => absurd rfl hx, fun hjlen _ hnn => ?_, fun _ => ?_, fun a ha => ?_⟩
        · rw [getD_set_self _ _ _ hjlen]
          intro hdvnone
          exact (hnn hl) (by rw [hdvnone])
        · by_cases hjlen : j < vst.1.length
          · rw [getD_set_self _ _ _ hjlen]
            cases hdvv : dv with
            | none => exact trivial
            | some dvv =>
              refine ⟨fun hncp => ?_, fun hll => absurd hll hl, fun hb => ?_⟩
              · rw [hncp] at hdv
                rw [show InputSettings.defaultValues ("ncp".toList) =
                  some (some (.num (.fin 2) true)) from rfl] at hdv
                cases hdv
                cases hdvv
                exact ⟨.fin 2, true, rfl⟩
              · have : InputSettings.defaultValues (InputSettings.varNames.getD j []) =
                    some (some (.b false)) := boolVar_default hb
                rw [this] at hdv
                cases hdv
                cases hdvv
                exact ⟨false, rfl⟩
          · rw [List.getD_eq_getElem?_getD, List.getElem?_eq_none (by
              rw [List.length_set]; omega), Option.getD_none]
            exact trivial
        · by_cases hskip : InputSettings.varNames.getD j [] ∉
              InputSettings.boolVars ++ InputSettings.customVars
          · rw [if_pos hskip] at ha
            by_cases hnc : InputSettings.varNames.getD j [] ≠ "number_calc".toList ∨
                (pyEqNum (vst.1.getD (idxOf ("case_e0".toList)) none) 5 = true ∨
                 pyEqNum (vst.1.getD (idxOf ("case_alpha".toList)) none) 5 = true)
            · rw [if_pos hnc] at ha
              rcases List.mem_append.1 ha with hm | hm
              · exact Or.inl hm
              · simp only [List.mem_singleton] at hm
                exact Or.inr ⟨dv, rfl, Or.inr ⟨hm, hl⟩⟩
            · rw [if_neg hnc] at ha
              exact Or.inl ha
          · rw [if_neg hskip] at ha
            exact Or.inl ha

theorem foldDefault_out :
    ∀ {idxs : List ℕ} {vst vst' : List (Option Val) × List Str},
    idxs.foldlM defaultStep vst = .ok vst' →
    vst'.1.length = vst.1.length ∧
    (∀ i, vst.1.getD i none ≠ none → vst'.1.getD i none ≠ none) ∧
    ((∀ i, SlotInv i (vst.1.getD i none)) → ∀ i, SlotInv i (vst'.1.getD i none)) ∧
    (∀ a ∈ vst'.2, a ∈ vst.2 ∨ ∃ j ∈ idxs, DefaultAlertAt j a) := by
  intro idxs
  induction idxs with
  | nil =>
    intro vst vst' h
    cases h
    exact ⟨rfl, fun _ hx => hx, fun hi => hi, fun a ha => Or.inl ha⟩
  | cons j0 rest ih =>
    intro vst vst' h
    rw [List.foldlM_cons] at h
    obtain ⟨vst1, h1, h2⟩ := bind_eq_ok h
    obtain ⟨e1, e2, e3, e4, e5, e6⟩ := defaultStep_out h1
    obtain ⟨f1, f2, f3, f4⟩ := ih h2
    refine ⟨f1.trans e1, fun i hx => ?_, fun hi i => ?_, fun a ha => ?_⟩
    · refine f2 i ?_
      by_cases hij : i = j0
      · subst hij; exact e3 hx
      · rw [e2 i hij]; exact hx
    · refine f3 (fun i2 => ?_) i
      by_cases hij : i2 = j0
      · subst hij; exact e5 (hi i2)
      · rw [e2 i2 hij]; exact hi i2
    · rcases f4 a ha with hm | ⟨j, hj, hf⟩
      · rcases e6 a hm with hm2 | ⟨dv, hdv, hforms⟩
        · exact Or.inl hm2
        · exact Or.inr ⟨j0, by simp, dv, hdv, hforms⟩
      · exact Or.inr ⟨j, by simp [hj], hf⟩

theorem foldDefault_fill :
    ∀ {idxs : List ℕ} {vst vst' : List (Option Val) × List Str},
    idxs.foldlM defaultStep vst = .ok vst' →
    ∀ j ∈ idxs, j < vst.1.length →
    InputSettings.defaultValues (InputSettings.varNames.getD j []) ≠ none →
    (InputSettings.varNames.getD j [] ∉ InputSettings.listVars →
      InputSettings.defaultValues (InputSettings.varNames.getD j []) ≠ some none) →
    vst'.1.getD j none ≠ none := by
  intro idxs
  induction idxs with
  | nil => intro vst vst' h j hj; simp at hj
  | cons j0 rest ih =>
    intro vst vst' h j hj hlen hd1 hd2
    rw [List.foldlM_cons] at h
    obtain ⟨vst1, h1, h2⟩ := bind_eq_ok h
    obtain ⟨e1, e2, e3, e4, e5, e6⟩ := defaultStep_out h1
    rcases List.mem_cons.1 hj with hjj | hjj
    · subst hjj
      exact (foldDefault_out h2).2.1 j (e4 hlen hd1 hd2)
    · exact ih h2 j hjj (by omega) hd1 hd2

theorem crossFieldBoolStep_length (vst : List (Option Val) × List Str) (v : Str) :
    (crossFieldBoolStep vst v).1.length = vst.1.length := by
  simp only [crossFieldBoolStep]
  repeat' split
  all_goals simp [length_set_eq]

theorem crossFieldBoolStep_other (vst : List (Option Val) × List Str) (v : Str)
    (i : ℕ) (hi : i ≠ idxOf v) :
    (crossFieldBoolStep vst v).1.getD i none = vst.1.getD i none := by
  simp only [crossFieldBoolStep]
  repeat' split
  all_goals try dsimp only
  all_goals repeat rw [getD_set_ne _ _ _ _ (Ne.symm hi)]

theorem crossFieldBoolStep_forced (vst : List (Option Val) × List Str) (v : Str)
    (x : Bool) (hlen : idxOf v < vst.1.length)
    (hslot : vst.1.getD (idxOf v) none = some (.b x))
    (hce : pyEqNum (vst.1.getD (idxOf ("case_e0".toList)) none) 5 = true ∨
      pyEqNum (vst.1.getD (idxOf ("case_alpha".toList)) none) 5 = true) :
    (crossFieldBoolStep vst v).1.getD (idxOf v) none = some (.b false) := by
  unfold crossFieldBoolStep
  cases x with
  | false =>
    rw [if_pos (by rw [hslot]; decide)]
    exact hslot
  | true =>
    rw [if_neg (by rw [hslot]; decide)]
    try dsimp only
    cases hce0 : pyEqNum (vst.1.getD (idxOf ("case_e0".toList)) none) 5 with
    | true =>
      try dsimp only
      rw [if_pos rfl]
      try dsimp only
      split_ifs
      · rw [getD_set_self _ _ _ (by simpa [length_set_eq] using hlen)]
      · rw [getD_set_self _ _ _ hlen]
    | false =>
      have hca : pyEqNum (vst.1.getD (idxOf ("case_alpha".toList)) none) 5 = true := by
        rcases hce with h | h
        · rw [h] at hce0
          cases hce0
        · exact h
      try dsimp only
      rw [if_neg (show ¬(false = true) from by decide)]
      rw [hca]
      try dsimp only
      rw [if_pos rfl]
      try dsimp only
      split_ifs
      · rw [getD_set_self _ _ _ (by simpa [length_set_eq] using hlen)]
      · rw [getD_set_self _ _ _ hlen]

theorem crossFieldPass_forces_particles {vst : List (Option Val) × List Str}
    {x27 x28 : Bool}
    (hlen : vst.1.length = 30)
    (h27 : vst.1.getD (idxOf ("lparticle_p".toList)) none = some (.b x27))
    (h28 : vst.1.getD (idxOf ("lparticle_r".toList)) none = some (.b x28))
    (hce : pyEqNum (vst.1.getD (idxOf ("case_e0".toList)) none) 5 = true ∨
      pyEqNum (vst.1.getD (idxOf ("case_alpha".toList)) none) 5 = true) :
    (crossFieldPass vst).1.getD (idxOf ("lparticle_p".toList)) none = some (.b false) ∧
    (crossFieldPass vst).1.getD (idxOf ("lparticle_r".toList)) none = some (.b false) := by
  have f27 : (crossFieldBoolStep vst ("lparticle_p".toList)).1.getD
      (idxOf ("lparticle_p".toList)) none = some (.b false) :=
    crossFieldBoolStep_forced vst _ x27 (by rw [hlen]; decide) h27 hce
  have f28 : (crossFieldBoolStep vst ("lparticle_p".toList)).1.getD
      (idxOf ("lparticle_r".toList)) none = some (.b x28) := by
    rw [crossFieldBoolStep_other _ _ _ (by decide)]; exact h28
  have fce : pyEqNum ((crossFieldBoolStep vst ("lparticle_p".toList)).1.getD
      (idxOf ("case_e0".toList)) none) 5 = true ∨
      pyEqNum ((crossFieldBoolStep vst ("lparticle_p".toList)).1.getD
      (idxOf ("case_alpha".toList)) none) 5 = true := by
    rcases hce with h | h
    · exact Or.inl (by rw [crossFieldBoolStep_other _ _ _ (by decide)]; exact h)
    · exact Or.inr (by rw [crossFieldBoolStep_other _ _ _ (by decide)]; exact h)
  have flen : (crossFieldBoolStep vst ("lparticle_p".toList)).1.length = 30 := by
    rw [crossFieldBoolStep_length, hlen]
  have g28 : (crossFieldBoolStep (crossFieldBoolStep vst ("lparticle_p".toList))
      ("lparticle_r".toList)).1.getD (idxOf ("lparticle_r".toList)) none
      = some (.b false) :=
    crossFieldBoolStep_forced _ _ x28 (by rw [flen]; decide) f28 fce
  have g27 : (crossFieldBoolStep (crossFieldBoolStep vst ("lparticle_p".toList))
      ("lparticle_r".toList)).1.getD (idxOf ("lparticle_p".toList)) none
      = some (.b false) := by
    rw [crossFieldBoolStep_other _ _ _ (by decide)]; exact f27
  have m27 : (crossFieldBoolStep (crossFieldBoolStep (crossFieldBoolStep vst
      ("lparticle_p".toList)) ("lparticle_r".toList)) ("lmatrices".toList)).1.getD
      (idxOf ("lparticle_p".toList)) none = some (.b false) := by
    rw [crossFieldBoolStep_other _ _ _ (by decide)]; exact g27
  have m28 : (crossFieldBoolStep (crossFieldBoolStep (crossFieldBoolStep vst
      ("lparticle_p".toList)) ("lparticle_r".toList)) ("lmatrices".toList)).1.getD
      (idxOf ("lparticle_r".toList)) none = some (.b false) := by
    rw [crossFieldBoolStep_other _ _ _ (by decide)]; exact g28
  have hfold : InputSettings.boolVars.foldl crossFieldBoolStep vst =
      crossFieldBoolStep (crossFieldBoolStep (crossFieldBoolStep vst
        ("lparticle_p".toList)) ("lparticle_r".toList)) ("lmatrices".toList) := rfl
  unfold crossFieldPass
  try dsimp only
  rw [hfold]
  constructor
  · split
    · rw [getD_set_ne _ _ _ _ (by decide)]; exact m27
    · exact m27
  · split
    · rw [getD_set_ne _ _ _ _ (by decide)]; exact m28
    · exact m28

/-! ### Separating the alert families by their literal prefixes -/

theorem take_append_of_le {A x : Str} {k : ℕ} (h : k ≤ A.length) :
    (A ++ x).take k = A.take k := List.take_append_of_le_length h

theorem ne_of_take_ne {a b : Str} (k : ℕ) (h : a.take k ≠ b.take k) : a ≠ b :=
  fun he => h (by rw [he])

theorem defaultValues_eq_none {n : Str} (hn : n ∉ defaultsDomain) :
    InputSettings.defaultValues n = none := by
  simp only [defaultsDomain, List.mem_cons, not_or] at hn
  obtain ⟨h1, h2, h3, h4, h5, h6, h7, h8, h9, h10, h11, h12, h13, h14, h15, h16, h17, h18, h19, h20, h21, h22, h23, h24, h25, h26, h27, h28, h29, -⟩ := hn
  unfold InputSettings.defaultValues
  rw [if_neg h1, if_neg h2, if_neg h3, if_neg h4, if_neg h5, if_neg h6, if_neg h7, if_neg h8, if_neg h9, if_neg h10, if_neg h11, if_neg h12, if_neg h13, if_neg h14, if_neg h15, if_neg h16, if_neg h17, if_neg h18, if_neg h19, if_neg h20, if_neg h21, if_neg h22, if_neg h23, if_neg h24, if_neg h25, if_neg h26, if_neg h27, if_neg h28, if_neg h29]

theorem defaultValues_mem {n : Str} {d : Option Val}
    (h : InputSettings.defaultValues n = some d) : n ∈ defaultsDomain := by
  by_contra hn
  rw [defaultValues_eq_none hn] at h
  cases h

theorem missingListAlert_take12 (n : Str) (d : Option Val) (hn : 2 ≤ n.length) :
    (missingListAlert n d).take 12 = ("Variable \"".toList ++ n).take 12 := by
  unfold missingListAlert
  rw [show ∀ (a b c d' e : Str), a ++ b ++ c ++ d' ++ e = (a ++ b) ++ (c ++ (d' ++ e)) from
    fun a b c d' e => by simp [List.append_assoc]]
  exact take_append_of_le (by simp; omega)

theorem missingScalarAlert_take12 (n : Str) (d : Option Val) (hn : 2 ≤ n.length) :
    (missingScalarAlert n d).take 12 = ("Variable \"".toList ++ n).take 12 := by
  unfold missingScalarAlert
  rw [show ∀ (a b c d' e : Str), a ++ b ++ c ++ d' ++ e = (a ++ b) ++ (c ++ (d' ++ e)) from
    fun a b c d' e => by simp [List.append_assoc]]
  exact take_append_of_le (by simp; omega)

theorem missingListAlert_take1 (n : Str) (d : Option Val) :
    (missingListAlert n d).take 1 = ['V'] := by
  unfold missingListAlert
  rw [show ∀ (a b c d' e : Str), a ++ b ++ c ++ d' ++ e = (a ++ b) ++ (c ++ (d' ++ e)) from
    fun a b c d' e => by simp [List.append_assoc]]
  rw [take_append_of_le (by simp)]
  rfl

theorem defaultAlert_ne_missingOptional {j : ℕ} {a : Str}
    (h : DefaultAlertAt j a) {t : Str} (ht : t ∈ optionalArrays) (dv : Option Val) :
    a ≠ missingListAlert t dv := by
  obtain ⟨d, hd, hforms⟩ := h
  have hmem := defaultValues_mem hd
  clear hd
  rcases hforms with ⟨ha, hopt⟩ | ⟨ha, hlv⟩
  · subst ha
    generalize hng : InputSettings.varNames.getD j [] = nm at hmem hopt ⊢
    fin_cases hmem <;> first
      | exact absurd (by decide) hopt
      | (fin_cases ht <;>
          (refine ne_of_take_ne 12 ?_
           rw [missingListAlert_take12 _ _ (by decide),
             missingListAlert_take12 _ _ (by decide)]
           decide))
  · subst ha
    generalize hng : InputSettings.varNames.getD j [] = nm at hmem hlv ⊢
    fin_cases hmem <;> first
      | exact absurd (by decide) hlv
      | (fin_cases ht <;>
          (refine ne_of_take_ne 12 ?_
           rw [missingScalarAlert_take12 _ _ (by decide),
             missingListAlert_take12 _ _ (by decide)]
           decide))

theorem take1_of_append (c : Char) (A x : Str) (h : A.take 1 = [c]) :
    (A ++ x).take 1 = [c] := by
  have hl : 1 ≤ A.length := by
    cases A with
    | nil => simp at h
    | cons a l => simp
  rw [take_append_of_le hl, h]

theorem unknownVarAlert_take1 (nm : Str) (k : ℕ) :
    (unknownVarAlert nm k).take 1 = ['U'] := by
  unfold unknownVarAlert
  simp only [List.append_assoc]
  exact take1_of_append 'U' _ _ (by decide)

theorem failedReadAlert_take1 (nm : Str) (k : ℕ) :
    (failedReadAlert nm k).take 1 = ['F'] := by
  unfold failedReadAlert
  simp only [List.append_assoc]
  exact take1_of_append 'F' _ _ (by decide)

theorem symbolUnknownAlert_take1 (s : Str) (p k : ℕ) :
    (symbolUnknownAlert s p k).take 1 = ['E'] := by
  unfold symbolUnknownAlert
  simp only [List.append_assoc]
  exact take1_of_append 'E' _ _ (by decide)

theorem parseAlert_ne_missingList {k : ℕ} {a : Str} (h : ParseAlertOK k a)
    (t : Str) (dv : Option Val) : a ≠ missingListAlert t dv := by
  have hV := missingListAlert_take1 t dv
  rcases h with ⟨nm, ha⟩ | ⟨nm, ha⟩ | ⟨s, p, ha⟩ | ha <;> subst ha <;>
    refine ne_of_take_ne 1 ?_ <;> rw [hV]
  · rw [unknownVarAlert_take1]; decide
  · rw [failedReadAlert_take1]; decide
  · rw [symbolUnknownAlert_take1]; decide
  · decide

theorem crossFieldBoolStep_alerts (vst : List (Option Val) × List Str) (v : Str) :
    ∀ a ∈ (crossFieldBoolStep vst v).2, a ∈ vst.2 ∨ ∃ s, a = v ++ s := by
  intro a ha
  simp only [crossFieldBoolStep] at ha
  repeat' split at ha
  all_goals try exact Or.inl ha
  all_goals simp only [List.mem_append, List.mem_singleton] at ha
  · rename_i hcond
    rcases ha with (ha | rfl) | rfl
    · exact Or.inl ha
    · exact Or.inr ⟨_, rfl⟩
    · exact Or.inr ⟨"=.true. not allowed for idrel=0 - changed to .false.".toList,
        by rw [hcond.1]; decide⟩
  · rcases ha with ha | rfl
    · exact Or.inl ha
    · exact Or.inr ⟨_, rfl⟩
  · rename_i hcond
    rcases ha with (ha | rfl) | rfl
    · exact Or.inl ha
    · exact Or.inr ⟨_, rfl⟩
    · exact Or.inr ⟨"=.true. not allowed for idrel=0 - changed to .false.".toList,
        by rw [hcond.1]; decide⟩
  · rcases ha with ha | rfl
    · exact Or.inl ha
    · exact Or.inr ⟨_, rfl⟩
  · rename_i hcond
    rcases ha with ha | rfl
    · exact Or.inl ha
    · exact Or.inr ⟨"=.true. not allowed for idrel=0 - changed to .false.".toList,
        by rw [hcond.1]; decide⟩

theorem crossFieldPass_alerts (vst : List (Option Val) × List Str) :
    ∀ a ∈ (crossFieldPass vst).2, a ∈ vst.2 ∨
      (∃ v ∈ InputSettings.boolVars, ∃ s, a = v ++ s) ∨
      a = "iintegral=0 not allowed for ipot>3 - changed to 2".toList := by
  intro a ha
  have hfold : ∀ a2 ∈ (InputSettings.boolVars.foldl crossFieldBoolStep vst).2,
      a2 ∈ vst.2 ∨ ∃ v ∈ InputSettings.boolVars, ∃ s, a2 = v ++ s := by
    intro a2 ha2
    rw [show InputSettings.boolVars.foldl crossFieldBoolStep vst =
      crossFieldBoolStep (crossFieldBoolStep (crossFieldBoolStep vst
        ("lparticle_p".toList)) ("lparticle_r".toList)) ("lmatrices".toList) from rfl] at ha2
    rcases crossFieldBoolStep_alerts _ _ _ ha2 with ha2 | ⟨s, rfl⟩
    · rcases crossFieldBoolStep_alerts _ _ _ ha2 with ha2 | ⟨s, rfl⟩
      · rcases crossFieldBoolStep_alerts _ _ _ ha2 with ha2 | ⟨s, rfl⟩
        · exact Or.inl ha2
        · exact Or.inr ⟨_, by decide, s, rfl⟩
      · exact Or.inr ⟨_, by decide, s, rfl⟩
    · exact Or.inr ⟨_, by decide, s, rfl⟩
  unfold crossFieldPass at ha
  try dsimp only at ha
  split at ha
  · simp only [List.mem_append, List.mem_singleton] at ha
    rcases ha with ha | rfl
    · rcases hfold a ha with h1 | h1
      · exact Or.inl h1
      · exact Or.inr (Or.inl h1)
    · exact Or.inr (Or.inr rfl)
  · rcases hfold a ha with h1 | h1
    · exact Or.inl h1
    · exact Or.inr (Or.inl h1)

theorem crossFieldBoolStep_nonnone (vst : List (Option Val) × List Str) (v : Str)
    (i : ℕ) (h : vst.1.getD i none ≠ none) :
    (crossFieldBoolStep vst v).1.getD i none ≠ none := by
  by_cases hi : i = idxOf v
  · subst hi
    by_cases hlen : idxOf v < vst.1.length
    · simp only [crossFieldBoolStep]
      repeat' split
      all_goals try dsimp only
      all_goals first
        | exact h
        | (rw [getD_set_self _ _ _ (by simp [length_set_eq]; omega)]; simp)
        | (rw [getD_set_self _ _ _ hlen]; simp)
    · have hnone : vst.1.getD (idxOf v) none = none := by
        rw [List.getD_eq_getElem?_getD, List.getElem?_eq_none (by omega), Option.getD_none]
      exact absurd hnone h
  · rw [crossFieldBoolStep_other _ _ _ hi]
    exact h

theorem crossFieldPass_nonnone (vst : List (Option Val) × List Str)
    (i : ℕ) (h : vst.1.getD i none ≠ none) :
    (crossFieldPass vst).1.getD i none ≠ none := by
  have hfold : (InputSettings.boolVars.foldl crossFieldBoolStep vst).1.getD i none ≠ none := by
    rw [show InputSettings.boolVars.foldl crossFieldBoolStep vst =
      crossFieldBoolStep (crossFieldBoolStep (crossFieldBoolStep vst
        ("lparticle_p".toList)) ("lparticle_r".toList)) ("lmatrices".toList) from rfl]
    exact crossFieldBoolStep_nonnone _ _ _
      (crossFieldBoolStep_nonnone _ _ _ (crossFieldBoolStep_nonnone _ _ _ h))
  have hfoldlen : (InputSettings.boolVars.foldl crossFieldBoolStep vst).1.length =
      vst.1.length := by
    rw [show InputSettings.boolVars.foldl crossFieldBoolStep vst =
      crossFieldBoolStep (crossFieldBoolStep (crossFieldBoolStep vst
        ("lparticle_p".toList)) ("lparticle_r".toList)) ("lmatrices".toList) from rfl]
    rw [crossFieldBoolStep_length, crossFieldBoolStep_length, crossFieldBoolStep_length]
  unfold crossFieldPass
  try dsimp only
  split
  · by_cases hi : i = idxOf ("iintegral".toList)
    · subst hi
      by_cases hlen : idxOf ("iintegral".toList) < vst.1.length
      · rw [getD_set_self _ _ _ (by rw [hfoldlen]; omega)]
        simp
      · have hnone : vst.1.getD (idxOf ("iintegral".toList)) none = none := by
          rw [List.getD_eq_getElem?_getD, List.getElem?_eq_none (by omega), Option.getD_none]
        exact absurd hnone h
    · rw [getD_set_ne _ _ _ _ (fun hc => hi hc.symm)]
      exact hfold
  · exact hfold

/-! ### Decomposing a successful `loadInputFile` run -/

theorem loadInputFile_ok_elim {avn : Option (List Str)} {text : Str}
    {ed : ElementData} {m : InputSettingsM} {alerts : List Str}
    (h : loadInputFile avn text ed = .ok (m, alerts)) :
    ∃ st vst,
      processLines avn ed 0
        ⟨List.replicate InputSettings.varNames.length none, [], [], none⟩
        (fileLines text).tail = .ok st ∧
      applyDefaults (st.v, st.alerts) = .ok vst ∧
      m = ⟨strip ((fileLines text).headD []), (crossFieldPass vst).1,
        st.additionalSettings⟩ ∧
      alerts = (crossFieldPass vst).2 := by
  unfold loadInputFile at h
  try dsimp only at h
  obtain ⟨st, h1, h⟩ := bind_eq_ok h
  obtain ⟨vst, h2, h⟩ := bind_eq_ok h
  cases h
  exact ⟨st, vst, h1, h2, rfl, rfl⟩

theorem loadInputFile_filled {avn : Option (List Str)} {text : Str}
    {ed : ElementData} {m : InputSettingsM} {alerts : List Str}
    (h : loadInputFile avn text ed = .ok (m, alerts)) :
    ∀ j < InputSettings.varNames.length, j ≠ 5 → m.vars.getD j none ≠ none := by
  obtain ⟨st, vst, h1, h2, hm, ha⟩ := loadInputFile_ok_elim h
  obtain ⟨hlen, -, -⟩ := processLines_out h1
  have hlen30 : st.v.length = 30 := by
    rw [hlen]
    rfl
  intro j hj hne5
  have hj30 : j < 30 := by
    rw [show InputSettings.varNames.length = 30 from rfl] at hj
    exact hj
  have hfill : vst.1.getD j none ≠ none := by
    unfold applyDefaults at h2
    refine foldDefault_fill h2 j ?_ ?_ ?_ ?_
    · simp only [List.mem_range]
      show j < st.v.length
      rw [hlen30]
      omega
    · show j < st.v.length
      rw [hlen30]
      omega
    · interval_cases j <;> first | (exact absurd rfl hne5) | decide
    · intro hnl
      interval_cases j <;>
        first | (exact absurd rfl hne5) | decide | (exact absurd (by decide) hnl)
  rw [show m.vars = (crossFieldPass vst).1 from by rw [hm]]
  exact crossFieldPass_nonnone _ _ hfill

theorem loadInputFile_no_missing_optional {avn : Option (List Str)} {text : Str}
    {ed : ElementData} {m : InputSettingsM} {alerts : List Str}
    (h : loadInputFile avn text ed = .ok (m, alerts)) :
    ∀ a ∈ alerts, ∀ t ∈ optionalArrays, ∀ dv, a ≠ missingListAlert t dv := by
  obtain ⟨st, vst, h1, h2, hm, ha⟩ := loadInputFile_ok_elim h
  subst ha
  intro a ha t ht dv
  rcases crossFieldPass_alerts vst a ha with h3 | ⟨v, hv, s, rfl⟩ | rfl
  · unfold applyDefaults at h2
    rcases (foldDefault_out h2).2.2.2 a h3 with h4 | ⟨j, hj, hda⟩
    · rcases (processLines_out h1).2.2 a h4 with h5 | ⟨k2, hp⟩
      · simp at h5
      · exact parseAlert_ne_missingList hp t dv
    · exact defaultAlert_ne_missingOptional hda ht dv
  · refine ne_of_take_ne 1 ?_
    rw [missingListAlert_take1]
    have hvne : v.take 1 = ['l'] := by fin_cases hv <;> decide
    rw [take1_of_append 'l' _ _ hvne]
    decide
  · refine ne_of_take_ne 1 ?_
    rw [missingListAlert_take1]
    decide

theorem slotInv_replicate :
    ∀ i, SlotInv i ((List.replicate InputSettings.varNames.length
      (none : Option Val)).getD i none) := by
  intro i
  rcases lt_or_ge i InputSettings.varNames.length with hi | hi
  · rw [List.getD_eq_getElem?_getD, List.getElem?_replicate_of_lt (by simpa using hi)]
    exact trivial
  · rw [List.getD_eq_getElem?_getD, List.getElem?_eq_none (by simpa using hi),
      Option.getD_none]
    exact trivial

theorem crossFieldPass_other (vst : List (Option Val) × List Str) (i : ℕ)
    (h1 : i ≠ idxOf ("lparticle_p".toList)) (h2 : i ≠ idxOf ("lparticle_r".toList))
    (h3 : i ≠ idxOf ("lmatrices".toList)) (h4 : i ≠ idxOf ("iintegral".toList)) :
    (crossFieldPass vst).1.getD i none = vst.1.getD i none := by
  have hfold : InputSettings.boolVars.foldl crossFieldBoolStep vst =
      crossFieldBoolStep (crossFieldBoolStep (crossFieldBoolStep vst
        ("lparticle_p".toList)) ("lparticle_r".toList)) ("lmatrices".toList) := rfl
  unfold crossFieldPass
  try dsimp only
  split
  · rw [getD_set_ne _ _ _ _ (fun hc => h4 hc.symm), hfold,
      crossFieldBoolStep_other _ _ _ h3, crossFieldBoolStep_other _ _ _ h2,
      crossFieldBoolStep_other _ _ _ h1]
  · rw [hfold, crossFieldBoolStep_other _ _ _ h3, crossFieldBoolStep_other _ _ _ h2,
      crossFieldBoolStep_other _ _ _ h1]

theorem loadInputFile_sweep_forces {avn : Option (List Str)} {text : Str}
    {ed : ElementData} {m : InputSettingsM} {alerts : List Str}
    (h : loadInputFile avn text ed = .ok (m, alerts))
    (hce : pyEqNum (m.call ("case_e0".toList)) 5 = true ∨
      pyEqNum (m.call ("case_alpha".toList)) 5 = true) :
    m.call ("lparticle_p".toList) = some (.b false) ∧
    m.call ("lparticle_r".toList) = some (.b false) := by
  obtain ⟨st, vst, h1, h2, hm, ha⟩ := loadInputFile_ok_elim h
  obtain ⟨plen, pinv, -⟩ := processLines_out h1
  have hlen30 : st.v.length = 30 := by rw [plen]; rfl
  unfold applyDefaults at h2
  obtain ⟨dlen, dnn, dinv, -⟩ := foldDefault_out h2
  have hvlen : vst.1.length = 30 := by rw [dlen]; exact hlen30
  have hsinv : ∀ i, SlotInv i (st.v.getD i none) := pinv slotInv_replicate
  have hvinv : ∀ i, SlotInv i (vst.1.getD i none) := dinv hsinv
  have h27lt : (27 : ℕ) < (st.v, st.alerts).1.length := by
    show 27 < st.v.length
    rw [hlen30]
    omega
  have h28lt : (28 : ℕ) < (st.v, st.alerts).1.length := by
    show 28 < st.v.length
    rw [hlen30]
    omega
  have f27 : vst.1.getD 27 none ≠ none :=
    foldDefault_fill h2 27 (List.mem_range.2 h27lt) h27lt (by decide) (fun _ => by decide)
  have f28 : vst.1.getD 28 none ≠ none :=
    foldDefault_fill h2 28 (List.mem_range.2 h28lt) h28lt (by decide) (fun _ => by decide)
  have s27 : ∃ x, vst.1.getD 27 none = some (.b x) := by
    cases hv : vst.1.getD 27 none with
    | none => exact absurd hv f27
    | some v =>
      have hiv := hvinv 27
      rw [hv] at hiv
      obtain ⟨x, hx⟩ := hiv.2.2 (by decide)
      exact ⟨x, by rw [hx]⟩
  have s28 : ∃ x, vst.1.getD 28 none = some (.b x) := by
    cases hv : vst.1.getD 28 none with
    | none => exact absurd hv f28
    | some v =>
      have hiv := hvinv 28
      rw [hv] at hiv
      obtain ⟨x, hx⟩ := hiv.2.2 (by decide)
      exact ⟨x, by rw [hx]⟩
  obtain ⟨x27, h27⟩ := s27
  obtain ⟨x28, h28⟩ := s28
  have hce' : pyEqNum (vst.1.getD (idxOf ("case_e0".toList)) none) 5 = true ∨
      pyEqNum (vst.1.getD (idxOf ("case_alpha".toList)) none) 5 = true := by
    have hcall : m.call ("case_e0".toList) =
        (crossFieldPass vst).1.getD (idxOf ("case_e0".toList)) none := by
      rw [hm]
      unfold InputSettingsM.call
      rw [if_pos (by decide)]
    have hcall2 : m.call ("case_alpha".toList) =
        (crossFieldPass vst).1.getD (idxOf ("case_alpha".toList)) none := by
      rw [hm]
      unfold InputSettingsM.call
      rw [if_pos (by decide)]
    rcases hce with h0 | h0
    · rw [hcall] at h0
      rw [crossFieldPass_other _ _ (by decide) (by decide) (by decide) (by decide)] at h0
      exact Or.inl h0
    · rw [hcall2] at h0
      rw [crossFieldPass_other _ _ (by decide) (by decide) (by decide) (by decide)] at h0
      exact Or.inr h0
  have hforce := @crossFieldPass_forces_particles vst x27 x28 hvlen h27 h28 hce'
  constructor
  · rw [hm]
    unfold InputSettingsM.call
    rw [if_pos (by decide)]
    exact hforce.1
  · rw [hm]
    unfold InputSettingsM.call
    rw [if_pos (by decide)]
    exact hforce.2

/-! ### The sparse-array rule on the encoder and writer side -/

theorem extractVariables_sparse_dns0 (symbols : List Str) (beamComp : List BeamCompEntry)
    (targetComp : List TargetCompEntry) (targetLayers : List TargetLayerEntry)
    (title : Str) (a1 a2 a3 a4 a5 a6 a7 a8 a9 a10 a11 a12 a13 : ℚ)
    (b1 : Bool) (a14 : ℚ) (b2 b3 b4 : Bool) (addl : List Str)
    (hbeam : beamComp.all fun e => e.element.atomic_density = e.atomicDensity)
    (htarget : targetComp.all fun e => e.element.atomic_density = e.atomicDensity) :
    (extractVariables symbols beamComp targetComp targetLayers title
      a1 a2 a3 a4 a5 a6 a7 a8 a9 a10 a11 a12 a13 b1 a14 b2 b3 b4
      addl).settings.vars.getD 2 none = some (.numList []) := by
  unfold extractVariables
  try dsimp only
  rw [if_neg (not_not_intro ⟨hbeam, htarget⟩)]
  rfl

theorem extractVariables_sparse_e_surfb (symbols : List Str) (beamComp : List BeamCompEntry)
    (targetComp : List TargetCompEntry) (targetLayers : List TargetLayerEntry)
    (title : Str) (a1 a2 a3 a4 a5 a6 a7 a8 a9 a10 a11 a12 a13 : ℚ)
    (b1 : Bool) (a14 : ℚ) (b2 b3 b4 : Bool) (addl : List Str)
    (hbeam : beamComp.all fun e => e.element.surface_binding_energy = e.surfBindEnergy)
    (htarget : targetComp.all fun e => e.element.surface_binding_energy = e.surfBindEnergy) :
    (extractVariables symbols beamComp targetComp targetLayers title
      a1 a2 a3 a4 a5 a6 a7 a8 a9 a10 a11 a12 a13 b1 a14 b2 b3 b4
      addl).settings.vars.getD 3 none = some (.numList []) := by
  unfold extractVariables
  try dsimp only
  rw [if_neg (show ¬¬((beamComp.all fun e =>
      e.element.surface_binding_energy = e.surfBindEnergy) ∧
      (targetComp.all fun e => e.element.surface_binding_energy = e.surfBindEnergy))
    from not_not_intro ⟨hbeam, htarget⟩)]
  rfl

theorem extractVariables_sparse_e_displ (symbols : List Str) (beamComp : List BeamCompEntry)
    (targetComp : List TargetCompEntry) (targetLayers : List TargetLayerEntry)
    (title : Str) (a1 a2 a3 a4 a5 a6 a7 a8 a9 a10 a11 a12 a13 : ℚ)
    (b1 : Bool) (a14 : ℚ) (b2 b3 b4 : Bool) (addl : List Str)
    (hbeam : beamComp.all fun e => e.element.displacement_energy = e.displEnergy)
    (htarget : targetComp.all fun e => e.element.displacement_energy = e.displEnergy) :
    (extractVariables symbols beamComp targetComp targetLayers title
      a1 a2 a3 a4 a5 a6 a7 a8 a9 a10 a11 a12 a13 b1 a14 b2 b3 b4
      addl).settings.vars.getD 4 none = some (.numList []) := by
  unfold extractVariables
  try dsimp only
  rw [if_neg (show ¬¬((beamComp.all fun e =>
      e.element.displacement_energy = e.displEnergy) ∧
      (targetComp.all fun e => e.element.displacement_energy = e.displEnergy))
    from not_not_intro ⟨hbeam, htarget⟩)]
  rfl

theorem writeVarText_skips_empty_optional (m : InputSettingsM) (i : ℕ)
    (hi : InputSettings.varNames.getD i [] ∈ optionalArrays)
    (hv : isEmptyListVal (m.vars.getD i none)) :
    writeVarText m i = [] := by
  unfold writeVarText
  try dsimp only
  rw [if_pos ⟨hi, hv⟩]

/-! ### Helper lemmas for `joinAll` and `mapM` -/

theorem foldl_append_init (l : List Str) :
    ∀ init : Str, l.foldl (fun a b => a ++ b) init = init ++ joinAll l := by
  induction l with
  | nil => intro init; simp [joinAll]
  | cons x xs ih =>
    intro init
    rw [List.foldl_cons, ih]
    have hx : joinAll (x :: xs) = x ++ joinAll xs := by
      show List.foldl (fun a b => a ++ b) [] (x :: xs) = _
      rw [List.foldl_cons, ih]
      simp [joinAll]
    rw [hx, List.append_assoc]

theorem joinAll_cons (x : Str) (l : List Str) :
    joinAll (x :: l) = x ++ joinAll l := by
  show List.foldl (fun a b => a ++ b) [] (x :: l) = _
  rw [List.foldl_cons, foldl_append_init]
  simp [joinAll]

theorem joinAll_append (l1 l2 : List Str) :
    joinAll (l1 ++ l2) = joinAll l1 ++ joinAll l2 := by
  induction l1 with
  | nil => simp [joinAll]
  | cons x xs ih => rw [List.cons_append, joinAll_cons, joinAll_cons, ih, List.append_assoc]

theorem mapM_ok_length {α β : Type} {f : α → Except PyErr β} :
    ∀ {l : List α} {l2 : List β}, l.mapM f = .ok l2 → l2.length = l.length := by
  intro l
  induction l with
  | nil =>
    intro l2 h
    simp only [List.mapM_nil, pure, Except.pure] at h
    cases h
    rfl
  | cons x xs ih =>
    intro l2 h
    rw [List.mapM_cons] at h
    obtain ⟨y, hy, h⟩ := bind_eq_ok h
    obtain ⟨ys, hys, h⟩ := bind_eq_ok h
    simp only [pure, Except.pure] at h
    cases h
    simp [ih hys]

theorem mapM_ok_mem {α β : Type} {f : α → Except PyErr β} :
    ∀ {l : List α} {l2 : List β}, l.mapM f = .ok l2 →
      ∀ y ∈ l2, ∃ x ∈ l, f x = .ok y := by
  intro l
  induction l with
  | nil =>
    intro l2 h
    simp only [List.mapM_nil, pure, Except.pure] at h
    cases h
    intro y hy
    simp at hy
  | cons x xs ih =>
    intro l2 h
    rw [List.mapM_cons] at h
    obtain ⟨y, hy, h⟩ := bind_eq_ok h
    obtain ⟨ys, hys, h⟩ := bind_eq_ok h
    simp only [pure, Except.pure] at h
    cases h
    intro z hz
    rcases List.mem_cons.1 hz with rfl | hz2
    · exact ⟨x, by simp, hy⟩
    · obtain ⟨x2, hx2, hfx2⟩ := ih hys z hz2
      exact ⟨x2, by simp [hx2], hfx2⟩

/-! ### The claims -/

/-- C3: range clamping during decode never happens.  An `inel0` value
below the registered range `[1, 6]` is not clamped to the lower bound:
`checkValueRange` raises a `NameError` (its alert f-string reads the
unbound `lineNr`), the bare `except` turns the whole line into a
"Failed to read data" alert, the parsed value is discarded, and the slot
is later filled from the registry default (3.0 per element), while an
in-range value is left unchanged with no alert.  This contradicts the
claimed clamp-to-nearest-bound-with-one-alert behaviour. -/
theorem checkValueRange_clamping_is_dead_code :
    ((loadInputFile none inputC3 dbHHe).toOption.map
      (fun p => (p.1.call ("inel0".toList),
        decide (failedReadAlert ("inel0".toList) 0 ∈ p.2))) =
      some (some (.numList [some (.fin 3), some (.fin 3)]), true)) ∧
    ((loadInputFile none inputC3b dbHHe).toOption.map
      (fun p => (p.1.call ("inel0".toList),
        decide (failedReadAlert ("inel0".toList) 0 ∈ p.2))) =
      some (some (.numList [some (.fin 3), some (.fin 3)]), false)) := by
  constructor
  · decide
  · decide

/-- C6: the decoder resets `iintegral = 0` to its default 2 even when the
interaction potential is low-order.  The source compares
`varNames.index('ipot')` — the constant position 13 — with 3, so the test
`> 3` is always true and the decoded `ipot` value is never consulted:
with `ipot = 2` and `iintegral = 0` the integration method is still reset
to 2 and the reset alert is emitted, contradicting the claimed
keep-unchanged behaviour for low-order potentials. -/
theorem iintegral_reset_ignores_ipot :
    (loadInputFile none inputC6 dbHHe).toOption.map
      (fun p => (p.1.call ("iintegral".toList), p.1.call ("ipot".toList),
        decide ("iintegral=0 not allowed for ipot>3 - changed to 2".toList ∈ p.2))) =
      some (some (.num (.fin 2) true), some (.num (.fin 2) false), true) := by
  decide

/-- C7: the indexed assignment form `symbol(2) = "XX"` skips the
element-database repair: the resolution check reads the stale loop
variable left over from the last whole-list pass (`"He"`, resolvable), so
the unknown symbol `"XX"` stays in the model and no symbol alert (the
only alerts starting with `'E'`) is recorded; the whole-list form
`symbol = "H", "XX"` does replace the unknown entry by `"H"` with a
positional alert naming index 2.  The claim that the returned model never
contains an unknown symbol is therefore false for the indexed form. -/
theorem symbol_indexed_repair_skipped :
    ((loadInputFile none inputC7 dbHHe).toOption.map
      (fun p => (p.1.call ("symbol".toList),
        p.2.all (fun a => decide (a.take 1 ≠ ['E'])))) =
      some (some (.strList [some ("H".toList), some ("XX".toList)]), true)) ∧
    ((loadInputFile none inputC7b dbHHe).toOption.map
      (fun p => (p.1.call ("symbol".toList),
        decide (symbolUnknownAlert ("XX".toList) 2 1 ∈ p.2))) =
      some (some (.strList [some ("H".toList), some ("H".toList)]), true)) := by
  constructor
  · decide
  · decide

set_option maxRecDepth 40000 in
/-- C2: `loadInputFile` raises for content reasons, escaping to the
caller, contradicting the claimed totality on malformed content: a line
whose part left of `=` strips to the empty string raises an uncaught
`IndexError` at `varName[0]`; `ncp = nan` parses as the float `nan` and
then raises an uncaught `ValueError` at `int(...)` in the defaulting
pass; `ncp = 1e400` overflows `float` to `inf` and raises `OverflowError`
at the same `int(...)`. -/
theorem loadInputFile_crashes_on_content :
    loadInputFile none inputC2 dbHHe = .error .indexError ∧
    loadInputFile none inputC2b dbHHe = .error .valueError ∧
    loadInputFile none inputC2c dbHHe = .error .overflowError := by
  refine ⟨by decide, by decide, by decide⟩

/-- C4: amended defaulting totality — every registered variable *except*
`occurrence` (slot 5) is non-`None` in any successful decode; the
counterexample theorem below shows `occurrence`, a `varNames` entry with
no registry default, staying `None` on a title-only input. -/
theorem loadInputFile_fills_all_but_occurrence :
    ∀ (avn : Option (List Str)) (text : Str) (ed : ElementData)
      (m : InputSettingsM) (alerts : List Str),
      loadInputFile avn text ed = .ok (m, alerts) →
      ∀ j < InputSettings.varNames.length, j ≠ 5 → m.vars.getD j none ≠ none := by
  intro avn text ed m alerts h
  exact loadInputFile_filled h

/-- Witness for C4: on a concrete successful decode, slot 0 (`ncp`) is
filled. -/
theorem loadInputFile_fills_all_but_occurrence_witness :
    ∃ m alerts, loadInputFile none inputC3b dbHHe = .ok (m, alerts) ∧
      m.vars.getD 0 none ≠ none := by
  refine ⟨_, _, rfl, ?_⟩
  exact loadInputFile_fills_all_but_occurrence none inputC3b dbHHe _ _ rfl 0
    (by decide) (by decide)

/-- Counterexample for C4: on the title-only input the decode succeeds but
`occurrence` remains `None`. -/
theorem occurrence_unfilled_on_empty_input :
    (loadInputFile none inputC4 dbHHe).toOption.map
      (fun p => p.1.call ("occurrence".toList)) = some none := by
  decide

/-- C5: cross-field repair rule 1.  In any successful decode where the
decoded `case_e0` or `case_alpha` equals 5, both particle-tracking
booleans come out `false`; and on each complete concrete input with
`case_e0 = 5` (resp. `case_alpha = 5`) and both booleans `.true.`, the
decode yields both `false` with exactly the two forcing alerts. -/
theorem sweep_mode_forces_particle_tracking_off :
    (∀ (avn : Option (List Str)) (text : Str) (ed : ElementData)
      (m : InputSettingsM) (alerts : List Str),
      loadInputFile avn text ed = .ok (m, alerts) →
      (pyEqNum (m.call ("case_e0".toList)) 5 = true ∨
       pyEqNum (m.call ("case_alpha".toList)) 5 = true) →
      m.call ("lparticle_p".toList) = some (.b false) ∧
      m.call ("lparticle_r".toList) = some (.b false)) ∧
    ((loadInputFile none inputC5 dbHHe).toOption.map
      (fun p => (p.1.call ("lparticle_p".toList), p.1.call ("lparticle_r".toList),
        p.2)) =
      some (some (.b false), some (.b false),
        ["lparticle_p=.true. not allowed for case_e0=5 - changed to .false.".toList,
         "lparticle_r=.true. not allowed for case_e0=5 - changed to .false.".toList])) ∧
    ((loadInputFile none inputC5b dbHHe).toOption.map
      (fun p => (p.1.call ("lparticle_p".toList), p.1.call ("lparticle_r".toList),
        p.2)) =
      some (some (.b false), some (.b false),
        ["lparticle_p=.true. not allowed for case_alpha=5 - changed to .false.".toList,
         "lparticle_r=.true. not allowed for case_alpha=5 - changed to .false.".toList])) := by
  refine ⟨?_, by decide, by decide⟩
  intro avn text ed m alerts h hce
  exact loadInputFile_sweep_forces h hce

/-- Witness for C5: the general rule applied to each concrete sweep-mode
input (energy sweep, then angle sweep). -/
theorem sweep_mode_forces_particle_tracking_off_witness :
    (∃ m alerts, loadInputFile none inputC5 dbHHe = .ok (m, alerts) ∧
      m.call ("lparticle_p".toList) = some (.b false) ∧
      m.call ("lparticle_r".toList) = some (.b false)) ∧
    (∃ m alerts, loadInputFile none inputC5b dbHHe = .ok (m, alerts) ∧
      m.call ("lparticle_p".toList) = some (.b false) ∧
      m.call ("lparticle_r".toList) = some (.b false)) := by
  constructor
  · refine ⟨_, _, rfl, ?_⟩
    exact sweep_mode_forces_particle_tracking_off.1 none inputC5 dbHHe _ _ rfl
      (Or.inl (by decide))
  · refine ⟨_, _, rfl, ?_⟩
    exact sweep_mode_forces_particle_tracking_off.1 none inputC5b dbHHe _ _ rfl
      (Or.inr (by decide))

/-- C8: the sparse-array rule.  (i) If no beam or target entry deviates
from the element-database default density (resp. surface binding energy,
displacement energy), the encoder leaves `dns0` (resp. `e_surfb`,
`e_displ`) empty; (ii) the writer emits no text at all for an empty
optional array; (iii) no successful decode ever records a
missing-variable alert for any of the three optional arrays. -/
theorem sparse_arrays_rule :
    (∀ (symbols : List Str) (beamComp : List BeamCompEntry)
      (targetComp : List TargetCompEntry) (targetLayers : List TargetLayerEntry)
      (title : Str) (a1 a2 a3 a4 a5 a6 a7 a8 a9 a10 a11 a12 a13 : ℚ)
      (b1 : Bool) (a14 : ℚ) (b2 b3 b4 : Bool) (addl : List Str),
      (beamComp.all fun e => e.element.atomic_density = e.atomicDensity) →
      (targetComp.all fun e => e.element.atomic_density = e.atomicDensity) →
      (extractVariables symbols beamComp targetComp targetLayers title
        a1 a2 a3 a4 a5 a6 a7 a8 a9 a10 a11 a12 a13 b1 a14 b2 b3 b4
        addl).settings.vars.getD 2 none = some (.numList [])) ∧
    (∀ (symbols : List Str) (beamComp : List BeamCompEntry)
      (targetComp : List TargetCompEntry) (targetLayers : List TargetLayerEntry)
      (title : Str) (a1 a2 a3 a4 a5 a6 a7 a8 a9 a10 a11 a12 a13 : ℚ)
      (b1 : Bool) (a14 : ℚ) (b2 b3 b4 : Bool) (addl : List Str),
      (beamComp.all fun e => e.element.surface_binding_energy = e.surfBindEnergy) →
      (targetComp.all fun e => e.element.surface_binding_energy = e.surfBindEnergy) →
      (extractVariables symbols beamComp targetComp targetLayers title
        a1 a2 a3 a4 a5 a6 a7 a8 a9 a10 a11 a12 a13 b1 a14 b2 b3 b4
        addl).settings.vars.getD 3 none = some (.numList [])) ∧
    (∀ (symbols : List Str) (beamComp : List BeamCompEntry)
      (targetComp : List TargetCompEntry) (targetLayers : List TargetLayerEntry)
      (title : Str) (a1 a2 a3 a4 a5 a6 a7 a8 a9 a10 a11 a12 a13 : ℚ)
      (b1 : Bool) (a14 : ℚ) (b2 b3 b4 : Bool) (addl : List Str),
      (beamComp.all fun e => e.element.displacement_energy = e.displEnergy) →
      (targetComp.all fun e => e.element.displacement_energy = e.displEnergy) →
      (extractVariables symbols beamComp targetComp targetLayers title
        a1 a2 a3 a4 a5 a6 a7 a8 a9 a10 a11 a12 a13 b1 a14 b2 b3 b4
        addl).settings.vars.getD 4 none = some (.numList [])) ∧
    (∀ (m : InputSettingsM) (i : ℕ),
      InputSettings.varNames.getD i [] ∈ optionalArrays →
      isEmptyListVal (m.vars.getD i none) →
      writeVarText m i = []) ∧
    (∀ (avn : Option (List Str)) (text : Str) (ed : ElementData)
      (m : InputSettingsM) (alerts : List Str),
      loadInputFile avn text ed = .ok (m, alerts) →
      ∀ a ∈ alerts, ∀ t ∈ optionalArrays, ∀ dv, a ≠ missingListAlert t dv) :=
  ⟨fun s bc tc tl ti a1 a2 a3 a4 a5 a6 a7 a8 a9 a10 a11 a12 a13 b1 a14 b2 b3 b4 al hb ht =>
      extractVariables_sparse_dns0 s bc tc tl ti a1 a2 a3 a4 a5 a6 a7 a8 a9 a10
        a11 a12 a13 b1 a14 b2 b3 b4 al hb ht,
   fun s bc tc tl ti a1 a2 a3 a4 a5 a6 a7 a8 a9 a10 a11 a12 a13 b1 a14 b2 b3 b4 al hb ht =>
      extractVariables_sparse_e_surfb s bc tc tl ti a1 a2 a3 a4 a5 a6 a7 a8 a9 a10
        a11 a12 a13 b1 a14 b2 b3 b4 al hb ht,
   fun s bc tc tl ti a1 a2 a3 a4 a5 a6 a7 a8 a9 a10 a11 a12 a13 b1 a14 b2 b3 b4 al hb ht =>
      extractVariables_sparse_e_displ s bc tc tl ti a1 a2 a3 a4 a5 a6 a7 a8 a9 a10
        a11 a12 a13 b1 a14 b2 b3 b4 al hb ht,
   fun m i hi hv => writeVarText_skips_empty_optional m i hi hv,
   fun _ _ _ _ _ h => loadInputFile_no_missing_optional h⟩

/-- Witness for C8: the no-deviation composition leaves all three optional
arrays empty, the writer skips the empty `dns0`, and on a concrete decode
the recorded alert is not a missing-`dns0` alert. -/
theorem sparse_arrays_rule_witness :
    encND.settings.vars.getD 2 none = some (.numList []) ∧
    encND.settings.vars.getD 3 none = some (.numList []) ∧
    encND.settings.vars.getD 4 none = some (.numList []) ∧
    writeVarText encND.settings 2 = [] ∧
    (∃ m alerts, loadInputFile none inputC6 dbHHe = .ok (m, alerts) ∧
      "iintegral=0 not allowed for ipot>3 - changed to 2".toList ≠
        missingListAlert ("dns0".toList) none) := by
  refine ⟨?_, ?_, ?_, ?_, ?_⟩
  · exact sparse_arrays_rule.1 _ _ _ _ _ _ _ _ _ _ _ _ _ _ _ _ _ _ _ _ _ _ _ _
      (by simp [beamND, elH]) (by simp [targND, elHe])
  · exact sparse_arrays_rule.2.1 _ _ _ _ _ _ _ _ _ _ _ _ _ _ _ _ _ _ _ _ _ _ _ _
      (by simp [beamND, elH]) (by simp [targND, elHe])
  · exact sparse_arrays_rule.2.2.1 _ _ _ _ _ _ _ _ _ _ _ _ _ _ _ _ _ _ _ _ _ _ _ _
      (by simp [beamND, elH]) (by simp [targND, elHe])
  · refine sparse_arrays_rule.2.2.2.1 encND.settings 2 (by decide) ?_
    rw [show encND.settings.vars.getD 2 none = some (.numList []) from
      sparse_arrays_rule.1 _ _ _ _ _ _ _ _ _ _ _ _ _ _ _ _ _ _ _ _ _ _ _ _
        (by simp [beamND, elH]) (by simp [targND, elHe])]
    rfl
  · refine ⟨_, _, rfl, ?_⟩
    exact sparse_arrays_rule.2.2.2.2 none inputC6 dbHHe _ _ rfl _ (by decide)
      ("dns0".toList) (by decide) none

/-- C10: `loadLayersFile` always drops the final data row (the sentinel
position) — a successful load of a file with `n` data rows after the two
header lines returns exactly `n - 1` layer entries — and in every
returned entry the first element's abundance is 1 minus the sum of the
stored abundances. -/
theorem loadLayersFile_drops_last_row {text : Str} {entries : List TargetLayerEntry}
    (h : loadLayersFile text = .ok entries) :
    entries.length = ((fileLines text).drop 2).length - 1 ∧
    ∀ e ∈ entries, e.abundances.headD 0 = 1 - e.abundances.tail.sum := by
  unfold loadLayersFile at h
  try dsimp only at h
  constructor
  · rw [mapM_ok_length h]
    simp
  · intro e he
    obtain ⟨row, hrow, hparse⟩ := mapM_ok_mem h e he
    try dsimp only at hparse
    obtain ⟨allAb, hab, hparse⟩ := bind_eq_ok hparse
    cases row with
    | nil => simp [Bind.bind, Except.bind] at hparse
    | cons t0 rest0 =>
      try dsimp only at hparse
      cases hint : pyIntOfStr? t0 with
      | none => rw [hint] at hparse; simp [Bind.bind, Except.bind] at hparse
      | some seg =>
        rw [hint] at hparse
        try dsimp only at hparse
        cases rest0 with
        | nil => simp [Bind.bind, Except.bind] at hparse
        | cons t1 rest1 =>
          try dsimp only at hparse
          obtain ⟨thick, hthick, hparse⟩ := bind_eq_ok hparse
          cases hparse
          simp

/-- Witness for C10: the spec's 50-segment scenario — one data row plus the
sentinel loads as a single entry whose reconstructed first abundance is
`1 - 0.5`. -/
theorem loadLayersFile_drops_last_row_witness :
    ∃ entries, loadLayersFile inputC10 = .ok entries ∧
      entries.length = ((fileLines inputC10).drop 2).length - 1 ∧
      ∀ e ∈ entries, e.abundances.headD 0 = 1 - e.abundances.tail.sum := by
  refine ⟨_, rfl, ?_⟩
  exact loadLayersFile_drops_last_row rfl

/-- C9: every layer row of the layers-file text carries the layer's
segment count and then its *per-segment* thickness — not the product
`segmentCount × segmentThickness` claimed by the spec — followed by the
abundances of elements 2..ncp and the layer name; the text ends with the
zero sentinel row named `end`.  The counterexample theorem below shows
the thickness field of a concrete written row. -/
theorem layers_rows_use_per_segment_thickness :
    (∀ (e : EncSettings) (i : ℕ), i < e.targetLayers.length →
      ∃ pre post, getWriteLayersFileString e = pre ++
        (fmtIntWidth 6 (e.targetLayers.getD i dummyLayer).segmentCount ++
         "\t\t".toList ++
         fmt2 (e.targetLayers.getD i dummyLayer).segmentThickness ++ "\t".toList ++
         joinAll (((List.range ((ratTrunc (numOrZero
             (e.settings.call ("ncp".toList)))).toNat)).drop 1).map fun j =>
           fmt2 ((e.allAbundances.getD i []).getD j 0) ++ "\t".toList) ++
         "\t".toList ++ (e.targetLayers.getD i dummyLayer).layerName ++
         "\n".toList) ++ post) ∧
    (∀ e : EncSettings, ∃ pre, getWriteLayersFileString e = pre ++
      (fmtIntWidth 6 0 ++ "\t\t".toList ++ fmt2 0 ++ "\t".toList ++
       joinAll ((List.range ((ratTrunc (numOrZero
           (e.settings.call ("ncp".toList)))).toNat - 1)).map fun _ =>
         "0.00\t".toList) ++ "\t".toList ++ "end".toList)) := by
  constructor
  · intro e i hi
    unfold getWriteLayersFileString
    try dsimp only
    obtain ⟨s, t, hst⟩ := List.append_of_mem (List.mem_range.2 hi)
    rw [hst, List.map_append, List.map_cons, joinAll_append, joinAll_cons]
    refine ⟨"number of\tthick-\ttarget composition 2...ncp\tname of layer\n".toList ++
        "layers\t\tness\t".toList ++
        joinAll ((List.range ((ratTrunc (numOrZero
            (e.settings.call ("ncp".toList)))).toNat - 1)).map
          fun i2 => "qu_".toList ++ natDigits (i2 + 2) ++ "\t".toList) ++ "\n".toList ++
        joinAll (s.map fun i2 =>
          fmtIntWidth 6 (e.targetLayers.getD i2 dummyLayer).segmentCount ++
          "\t\t".toList ++
          fmt2 (e.targetLayers.getD i2 dummyLayer).segmentThickness ++ "\t".toList ++
          joinAll (((List.range ((ratTrunc (numOrZero
              (e.settings.call ("ncp".toList)))).toNat)).drop 1).map fun j =>
            fmt2 ((e.allAbundances.getD i2 []).getD j 0) ++ "\t".toList) ++
          "\t".toList ++ (e.targetLayers.getD i2 dummyLayer).layerName ++
          "\n".toList),
      joinAll (t.map fun i2 =>
          fmtIntWidth 6 (e.targetLayers.getD i2 dummyLayer).segmentCount ++
          "\t\t".toList ++
          fmt2 (e.targetLayers.getD i2 dummyLayer).segmentThickness ++ "\t".toList ++
          joinAll (((List.range ((ratTrunc (numOrZero
              (e.settings.call ("ncp".toList)))).toNat)).drop 1).map fun j =>
            fmt2 ((e.allAbundances.getD i2 []).getD j 0) ++ "\t".toList) ++
          "\t".toList ++ (e.targetLayers.getD i2 dummyLayer).layerName ++
          "\n".toList) ++
        (fmtIntWidth 6 0 ++ "\t\t".toList ++ fmt2 0 ++ "\t".toList ++
         joinAll ((List.range ((ratTrunc (numOrZero
             (e.settings.call ("ncp".toList)))).toNat - 1)).map fun _ =>
           "0.00\t".toList) ++ "\t".toList ++ "end".toList), ?_⟩
    simp [List.append_assoc]
  · intro e
    unfold getWriteLayersFileString
    try dsimp only
    refine ⟨"number of\tthick-\ttarget composition 2...ncp\tname of layer\n".toList ++
        "layers\t\tness\t".toList ++
        joinAll ((List.range ((ratTrunc (numOrZero
            (e.settings.call ("ncp".toList)))).toNat - 1)).map
          fun i2 => "qu_".toList ++ natDigits (i2 + 2) ++ "\t".toList) ++ "\n".toList ++
        joinAll ((List.range e.targetLayers.length).map fun i2 =>
          fmtIntWidth 6 (e.targetLayers.getD i2 dummyLayer).segmentCount ++
          "\t\t".toList ++
          fmt2 (e.targetLayers.getD i2 dummyLayer).segmentThickness ++ "\t".toList ++
          joinAll (((List.range ((ratTrunc (numOrZero
              (e.settings.call ("ncp".toList)))).toNat)).drop 1).map fun j =>
            fmt2 ((e.allAbundances.getD i2 []).getD j 0) ++ "\t".toList) ++
          "\t".toList ++ (e.targetLayers.getD i2 dummyLayer).layerName ++
          "\n".toList), ?_⟩
    simp [List.append_assoc]

/-- Witness for C9: the row decomposition applied to the single layer of
the 25-segment fixture. -/
theorem layers_rows_use_per_segment_thickness_witness :
    ∃ pre post, getWriteLayersFileString enc9 = pre ++
      (fmtIntWidth 6 (enc9.targetLayers.getD 0 dummyLayer).segmentCount ++
       "\t\t".toList ++
       fmt2 (enc9.targetLayers.getD 0 dummyLayer).segmentThickness ++ "\t".toList ++
       joinAll (((List.range ((ratTrunc (numOrZero
           (enc9.settings.call ("ncp".toList)))).toNat)).drop 1).map fun j =>
         fmt2 ((enc9.allAbundances.getD 0 []).getD j 0) ++ "\t".toList) ++
       "\t".toList ++ (enc9.targetLayers.getD 0 dummyLayer).layerName ++
       "\n".toList) ++ post :=
  layers_rows_use_per_segment_thickness.1 enc9 0 (by decide)

/-- Counterexample for C9: for the 25-segment layer of thickness 0.4 the
written row holds the per-segment `0.40` where the spec's
`segmentCount × segmentThickness` would be `10.00`. -/
theorem layers_row_thickness_counterexample :
    fmt2 ((25 : ℚ) * (2 / 5)) = "10.00".toList ∧
    fmt2 ((2 : ℚ) / 5) = "0.40".toList ∧
    getWriteLayersFileString enc9 =
      ("number of\tthick-\ttarget composition 2...ncp\tname of layer\n" ++
       "layers\t\tness\tqu_2\t\n    25\t\t0.40\t1.00\t\tlay\n" ++
       "     0\t\t0.00\t0.00\t\tend").toList := by
  refine ⟨by decide, by decide, by decide⟩

/-- C1: amended round trip, verified on a representative instance.  The
unconditional round trip is false (counterexample below), and no clean
universal restriction exists either: beyond the `iintegral` reset by the
always-true `ipot` membership test and the silent loss of `number_calc`
outside sweep mode, the decoder also collapses nonzero `idrel` to its
sign and, in sweep mode (`case_e0 = 5` or `case_alpha = 5`), forces
`lparticle_p`/`lparticle_r` to false regardless of the encoded flags.
For the concrete valid two-element composition `enc1` — `iintegral = 2`,
`number_calc = 19`, no sweep mode, `idrel ∈ {-1,0,1}` (values all the
decoder's repairs preserve) — decoding the written input file succeeds
with no alert and is value-equal (Python `==`, ignoring the int/float
rendering flag) to the encoded model on every registry slot except
`occurrence`, whose decoded form is the flag-pair representation of the
written strings. -/
theorem roundtrip_value_equal_up_to_repairs :
    ∃ m alerts,
      loadInputFile none (getWriteInputFileString enc1.settings) dbHHe = .ok (m, alerts) ∧
      alerts = [] ∧
      ∀ j ∈ List.range 30, j ≠ 5 →
        specValueEq (m.vars.getD j none) (enc1.settings.vars.getD j none) = true := by
  refine ⟨_, _, rfl, by decide, by decide⟩

/-- Counterexample for C1: the same composition encoded with the fast
integration method (`iintegral = 0`) and `number_calc = 30` decodes to
values differing from the model on both variables (`iintegral` is reset
to 2 by the always-true `ipot` check; `number_calc` is never written
outside sweep mode and reloads as the default 19). -/
theorem roundtrip_divergence_iintegral_number_calc :
    (loadInputFile none (getWriteInputFileString enc0.settings) dbHHe).toOption.map
      (fun p => (specValueEq (p.1.call ("iintegral".toList))
          (enc0.settings.call ("iintegral".toList)),
        specValueEq (p.1.call ("number_calc".toList))
          (enc0.settings.call ("number_calc".toList)))) = some (false, false) := by
  decide

end SDTrim

